import Mathlib

/-
Verification of the Jira → OpenProject migration engine
(repository marcoherzog/openproject-jira-importer).

The development shallowly embeds the relevant parts of the source:

* the JavaScript string primitives the code relies on
  (String.prototype.replace with a string pattern replaces only the first
  occurrence; String.prototype.includes is substring containment),
* the JavaScript Map used as the identity map (Map.set silently replaces
  an existing binding),
* convertAtlassianDocumentToHtml / processNode (src/migrate-all.js
  lines 983-1056): the recursive document converter, with JavaScript
  TypeError crashes (property access on undefined) modelled as Option.none,
* the relationship module (src/migrate-all.js lines 90-503):
  handleRelationships, retryMissingRelationships, createRelationships,
  checkParentRelationship, and the error normalisation in
  createRelationship / addWatcher,
* the per-issue pipeline of migrateIssues (src/migrate-all.js
  lines 648-953), parameterised by the production flag and by an
  environment of read responses, recording the sequence of attempted
  mutations.

Timestamps are modelled as naturals (the source compares ISO-8601 strings,
whose lexicographic order is order-isomorphic to time); work-package
identifiers are naturals or the dry-run placeholder.
-/

namespace Migration

/-! ## JavaScript string primitives -/

/-- Option.getD specialised to the JavaScript template-literal rendering of
a possibly-undefined string: an undefined value interpolates as the text
"undefined". -/
def jsTemplate (o : Option String) : String := o.getD "undefined"

/-- Decides whether the list starts with the given pattern
(the pattern is a prefix of the list). -/
def startsWith : List Char → List Char → Bool
  | _, [] => true
  | [], _ :: _ => false
  | a :: as, b :: bs => a == b && startsWith as bs

/-- Substring containment on character lists: true when the pattern occurs
contiguously somewhere in the list.  Models JavaScript
String.prototype.includes. -/
def hasSub : List Char → List Char → Bool
  | [], pat => startsWith [] pat
  | a :: t, pat => startsWith (a :: t) pat || hasSub t pat

/-- One-pass replacement of the first occurrence of a pattern, as performed
by JavaScript String.prototype.replace with a string pattern: only the
first occurrence is replaced; if the pattern does not occur the list is
returned unchanged. -/
def replaceFirstL (l pat rep : List Char) : List Char :=
  if startsWith l pat then rep ++ l.drop pat.length
  else
    match l with
    | [] => []
    | a :: t => a :: replaceFirstL t pat rep

/-- String wrapper for replaceFirstL: the JavaScript
String.prototype.replace with a string pattern and a replacement holding
no special dollar sequences. -/
def jsReplace (s pat rep : String) : String :=
  String.mk (replaceFirstL s.toList pat.toList rep.toList)

/-- String wrapper for hasSub: JavaScript String.prototype.includes. -/
def jsIncludes (s pat : String) : Bool := hasSub s.toList pat.toList

/-- ASCII lowering of one character, as JavaScript
String.prototype.toLowerCase acts on the ASCII range (which covers the
OpenProject error messages the code inspects). -/
def jsLowerChar (c : Char) : Char :=
  if 'A' ≤ c ∧ c ≤ 'Z' then Char.ofNat (c.toNat + 32) else c

/-- JavaScript String.prototype.toLowerCase restricted to ASCII input. -/
def jsToLower (s : String) : String := String.mk (s.toList.map jsLowerChar)

/-- Global single-character replacement, as performed by
String.prototype.replace with a global regular expression matching one
fixed character. -/
def replaceAllChar (l : List Char) (c : Char) (r : List Char) : List Char :=
  match l with
  | [] => []
  | a :: t => (if a == c then r else [a]) ++ replaceAllChar t c r

/-! ## JavaScript Map -/

/-- Lookup in an insertion-ordered association list, modelling
JavaScript Map.prototype.get. -/
def mapGet (m : List (String × α)) (k : String) : Option α :=
  match m with
  | [] => none
  | (k₁, v₁) :: t => if k₁ == k then some v₁ else mapGet t k

/-- Insertion into an insertion-ordered association list, modelling
JavaScript Map.prototype.set: an existing binding for the key is silently
replaced in place (keeping its position); otherwise the binding is
appended. -/
def mapSet (m : List (String × α)) (k : String) (v : α) : List (String × α) :=
  match m with
  | [] => [(k, v)]
  | (k₁, v₁) :: t => if k₁ == k then (k, v) :: t else (k₁, v₁) :: mapSet t k v

/-! ## Document model (Atlassian Document Format nodes as dynamic
JavaScript values)

Every field a node may or may not carry is an Option; a JavaScript null
appearing where a node is expected is the constructor jnull.  A property
access on undefined (for example node.text.replace when the node has no
text field) throws a TypeError in JavaScript; the embedding returns
Option.none for it, and the crash propagates outward like the exception
does. -/

/-- Formatting mark on a text node.  The attrs object is optional (a link
mark without attrs makes mark.attrs.href throw); inside it the href is
itself optional (an undefined href interpolates as "undefined"). -/
structure Mark where
  type : String
  href : Option (Option String)
deriving Repr, DecidableEq

/-- Attrs object of a heading or media node.  level is optional (heading),
type and alt belong to media nodes. -/
structure NodeAttrs where
  level : Option Nat
  type : Option String
  alt : Option String
deriving Repr, DecidableEq

/-- Document node: a dynamic JavaScript value as consumed by processNode.
jnull stands for a null entry; every property is optional. -/
inductive JNode : Type where
  | jnull : JNode
  | node (type : Option String) (text : Option String)
      (marks : Option (List Mark)) (attrs : Option NodeAttrs)
      (content : Option (List JNode)) : JNode

/-- Escaping of the two markup-significant characters performed on text
nodes: the global replacements of the two regular expressions in
node.text.replace(/</g, "&lt;").replace(/>/g, "&gt;"). -/
def escapeText (s : String) : String :=
  String.mk (replaceAllChar (replaceAllChar s.toList '<' ("&lt;".toList)) '>' ("&gt;".toList))

/-- Application of a single formatting mark to already-escaped text,
following the forEach body of the text case: strong, em and code wrap the
text, a link mark reads mark.attrs.href (throwing when attrs is absent),
any other mark type leaves the text unchanged. -/
def applyMark (text : String) (m : Mark) : Option String :=
  if m.type == "strong" then some ("<strong>" ++ text ++ "</strong>")
  else if m.type == "em" then some ("<em>" ++ text ++ "</em>")
  else if m.type == "code" then some ("<code>" ++ text ++ "</code>")
  else if m.type == "link" then
    match m.href with
    | none => none
    | some href => some ("<a href=\"" ++ jsTemplate href ++ "\">" ++ text ++ "</a>")
  else some text

/-- Sequential application of all marks in declaration order
(the node.marks.forEach loop). -/
def applyMarks (marks : List Mark) (text : String) : Option String :=
  match marks with
  | [] => some text
  | m :: rest =>
    match applyMark text m with
    | none => none
    | some t => applyMarks rest t

/-- JavaScript expression node.attrs.level || 1 on an optional numeric
level: undefined and 0 are falsy and yield 1. -/
def jsLevelOr1 : Option Nat → Nat
  | none => 1
  | some 0 => 1
  | some l => l

/-- The switch statement of processNode on node.type, taking the
already-rendered children (src/migrate-all.js lines 999-1052).  A
returned none models a thrown TypeError. -/
def renderNode (ty : String) (text : Option String) (marks : Option (List Mark))
    (attrs : Option NodeAttrs) (contentStr : String) : Option String :=
  match ty with
  | "doc" => some contentStr
  | "paragraph" =>
    some ("<p>" ++ (if contentStr == "" then "&nbsp;" else contentStr) ++ "</p>")
  | "text" =>
    match text with
    | none => none
    | some t =>
      match marks with
      | none => some (escapeText t)
      | some ms => applyMarks ms (escapeText t)
  | "bulletList" => some ("<ul>" ++ contentStr ++ "</ul>")
  | "orderedList" => some ("<ol>" ++ contentStr ++ "</ol>")
  | "listItem" => some ("<li>" ++ contentStr ++ "</li>")
  | "heading" =>
    match attrs with
    | none => none
    | some a =>
      let level := jsLevelOr1 a.level
      some ("<h" ++ toString level ++ ">" ++ contentStr ++ "</h" ++ toString level ++ ">")
  | "codeBlock" => some ("<pre><code>" ++ contentStr ++ "</code></pre>")
  | "blockquote" => some ("<blockquote>" ++ contentStr ++ "</blockquote>")
  | "hardBreak" => some "<br />"
  | "table" => some ("<table><tbody>" ++ contentStr ++ "</tbody></table>")
  | "tableRow" => some ("<tr>" ++ contentStr ++ "</tr>")
  | "tableHeader" => some ("<th>" ++ contentStr ++ "</th>")
  | "tableCell" => some ("<td>" ++ contentStr ++ "</td>")
  | "mediaSingle" => some ("<p>" ++ contentStr ++ "</p>")
  | "media" =>
    match attrs with
    | none => none
    | some a =>
      if a.type == some "file" && (match a.alt with
                                   | none => false
                                   | some s => !(s == "")) then
        some ("\x7b\x7bjira-attachment-placeholder:" ++ jsTemplate a.alt ++ "\x7d\x7d")
      else some ""
  | _ => some contentStr

mutual

/-- Embedding of processNode (src/migrate-all.js lines 1005-1028): the
recursive renderer of one document node.  The children are rendered
first, then the switch on node.type wraps them.  A returned none models
a thrown TypeError; some s is the produced markup. -/
def processNode : JNode → Option String
  | .jnull => some ""
  | .node type text marks attrs content =>
    match type with
    | none => some ""
    | some ty =>
      match renderContent content with
      | none => none
      | some contentStr => renderNode ty text marks attrs contentStr

/-- Rendering of the optional content array: absent content leaves the
accumulated content string empty. -/
def renderContent : Option (List JNode) → Option String
  | none => some ""
  | some cs => renderList cs

/-- Rendering of a content array: node.content.map(processNode).join("").
A crash in any child propagates. -/
def renderList : List JNode → Option String
  | [] => some ""
  | n :: t =>
    match processNode n with
    | none => none
    | some s =>
      match renderList t with
      | none => none
      | some r => some (s ++ r)

end

/-- Input of convertAtlassianDocumentToHtml: the description value may be
null/undefined, a bare string, or a document tree. -/
inductive ADoc : Type where
  | absent : ADoc
  | str (s : String) : ADoc
  | tree (n : JNode) : ADoc

/-- Embedding of convertAtlassianDocumentToHtml (src/migrate-all.js lines
983-1056).  A falsy document (null, undefined or the empty string) renders
to the empty string; a bare non-empty string is wrapped in a paragraph; a
tree is rendered by processNode.  none models a thrown TypeError. -/
def convertAtlassianDocumentToHtml : ADoc → Option String
  | .absent => some ""
  | .str s => if s == "" then some "" else some ("<p>" ++ s ++ "</p>")
  | .tree n => processNode n

/-- Well-formedness of one mark: a link mark must carry its attrs object
(the only mark field processNode dereferences). -/
def wfMark (m : Mark) : Bool := !(m.type == "link") || m.href.isSome

/-- Well-formedness of a marks array. -/
def wfMarks : Option (List Mark) → Bool
  | none => true
  | some ms => ms.all wfMark

mutual

/-- Well-formedness of a document node: every text node carries its text
field and well-formed marks, every heading and media node carries its
attrs object, recursively in all children.  These are exactly the
properties whose absence makes processNode throw. -/
def wfNode : JNode → Bool
  | .jnull => true
  | .node ty tx mks ats ct =>
    wfContent ct &&
    (match ty with
     | none => true
     | some t =>
       (!(t == "text") || (tx.isSome && wfMarks mks)) &&
       (!(t == "heading") || ats.isSome) &&
       (!(t == "media") || ats.isSome))

/-- Well-formedness of an optional content array. -/
def wfContent : Option (List JNode) → Bool
  | none => true
  | some cs => wfList cs

/-- Well-formedness of a node list. -/
def wfList : List JNode → Bool
  | [] => true
  | n :: t => wfNode n && wfList t

end

/-- Well-formedness of a converter input: only trees constrain
anything. -/
def wfDoc : ADoc → Bool
  | .absent => true
  | .str _ => true
  | .tree n => wfNode n

/-- The node-type vocabulary processNode recognises; any other type falls
to the default arm rendering only the children. -/
def knownNodeTypes : List String :=
  ["doc", "paragraph", "text", "bulletList", "orderedList", "listItem",
   "heading", "codeBlock", "blockquote", "hardBreak", "table", "tableRow",
   "tableHeader", "tableCell", "mediaSingle", "media"]

/-! ## Relationship module (src/migrate-all.js lines 90-503)

Issue creation timestamps are naturals (the source compares ISO-8601
strings; their lexicographic order is the time order).  The fields?.created
of a linked issue may be absent: a JavaScript comparison against undefined
is false in both directions. -/

/-- Reference to the other issue of a link (link.outwardIssue or
link.inwardIssue): a key and the optional fields.created timestamp. -/
structure LinkedIssue where
  key : String
  created : Option Nat
deriving Repr, DecidableEq

/-- One entry of issue.fields.issuelinks: the type names for the two
directions and at most one of the two issue references (the source tests
link.outwardIssue first, else link.inwardIssue). -/
structure IssueLink where
  outwardType : String
  inwardType : String
  outwardIssue : Option LinkedIssue
  inwardIssue : Option LinkedIssue
deriving Repr, DecidableEq

/-- The part of a Jira issue consumed by handleRelationships: key,
creation timestamp, the optional issuelinks array and the optional epic
link (customfield_10014). -/
structure RelIssue where
  key : String
  created : Nat
  issuelinks : Option (List IssueLink)
  epicLink : Option String
deriving Repr, DecidableEq

/-- JavaScript comparison a > b where b may be undefined:
false when b is undefined. -/
def jsGtOpt (a : Nat) (b : Option Nat) : Bool :=
  match b with
  | none => false
  | some b₁ => decide (a > b₁)

/-- JavaScript comparison a < b where b may be undefined:
false when b is undefined. -/
def jsLtOpt (a : Nat) (b : Option Nat) : Bool :=
  match b with
  | none => false
  | some b₁ => decide (a < b₁)

/-- Per-link computation of (relatedIssueKey, relationType, shouldSkip)
from the two switch statements of handleRelationships (src/migrate-all.js
lines 353-400).  none models a link carrying neither an outward nor an
inward issue, in which case the source leaves the three variables
undefined (no claim concerns that degenerate case). -/
def linkResolution (issue : RelIssue) (link : IssueLink) :
    Option (String × String × Bool) :=
  match link.outwardIssue with
  | some rel =>
    let rts :=
      if link.outwardType == "blocks" then ("blocks", false)
      else if link.outwardType == "relates to" then ("relates", false)
      else if link.outwardType == "is parent of" then ("includes", false)
      else if link.outwardType == "duplicates" then
        ("duplicates", jsGtOpt issue.created rel.created)
      else ("relates", false)
    some (rel.key, rts.1, rts.2)
  | none =>
    match link.inwardIssue with
    | some rel =>
      let rts :=
        if link.inwardType == "is blocked by" then ("blocked", false)
        else if link.inwardType == "relates to" then ("relates", false)
        else if link.inwardType == "is child of" then ("partof", false)
        else if link.inwardType == "is duplicated by" then
          ("duplicated", jsLtOpt issue.created rel.created)
        else ("relates", false)
      some (rel.key, rts.1, rts.2)
    | none => none

/-- A relationship declaration (fromKey, toKey, relationType), the value
serialised into the missingRelationships set. -/
structure Triple where
  fromKey : String
  toKey : String
  type : String
deriving Repr, DecidableEq

/-- Insertion into the missingRelationships set: the source stores the
JSON serialisation of the triple in a JavaScript Set, so adding a triple
already present by value leaves the set unchanged (all three call sites
serialise the fields in the same order, hence equal triples produce equal
strings). -/
def setAdd (s : List Triple) (t : Triple) : List Triple :=
  if t ∈ s then s else s ++ [t]

/-- State of the relationship module: the module-level
issueToWorkPackageMap, the missingRelationships set, the trace of
createRelationship calls (fromId, toId, type, outcome reported by the
collaborator) and the retry-sweep "still missing" report lines. -/
structure RelState where
  map : List (String × Nat)
  missing : List Triple
  attempts : List (Nat × Nat × String × Bool)
  reported : List Triple
deriving Repr, DecidableEq

/-- Outcome oracle for createRelationship calls: whether the collaborator
reports success for a given (fromId, toId, type).  createRelationship
catches every error internally and never throws (src/migrate-all.js lines
292-321), so the outcome never influences control flow or the module
state; the oracle only appears in the recorded trace. -/
def RelOracle : Type := Nat → Nat → String → Bool

/-- Processing of one regular issue link inside the for-loop of
handleRelationships: skip when shouldSkip, otherwise attempt creation when
the related key resolves, else record the triple in missingRelationships.
The try/catch around createRelationship never fires because
createRelationship never throws. -/
def handleLink (oracle : RelOracle) (issue : RelIssue) (fromWp : Nat)
    (st : RelState) (link : IssueLink) : RelState :=
  match linkResolution issue link with
  | none => st
  | some (relatedKey, relationType, shouldSkip) =>
    if shouldSkip then st
    else
      match mapGet st.map relatedKey with
      | some toWp =>
        { st with attempts :=
            st.attempts ++ [(fromWp, toWp, relationType, oracle fromWp toWp relationType)] }
      | none =>
        { st with missing := setAdd st.missing ⟨issue.key, relatedKey, relationType⟩ }

/-- Epic-link block of handleRelationships (src/migrate-all.js lines
331-348): attempt a "partof" edge towards the epic when its key resolves,
defer the triple otherwise. -/
def handleEpic (oracle : RelOracle) (issue : RelIssue) (fromWp : Nat)
    (st : RelState) : RelState :=
  match issue.epicLink with
  | none => st
  | some epicKey =>
    match mapGet st.map epicKey with
    | some epicWp =>
      { st with attempts :=
          st.attempts ++ [(fromWp, epicWp, "partof", oracle fromWp epicWp "partof")] }
    | none =>
      { st with missing := setAdd st.missing ⟨issue.key, epicKey, "partof"⟩ }

/-- Embedding of handleRelationships (src/migrate-all.js lines 324-444):
early return when the issue has neither issuelinks nor an epic link or
its own key is unmapped; then the epic link, then each regular link. -/
def handleRelationships (oracle : RelOracle) (issue : RelIssue)
    (st : RelState) : RelState :=
  match issue.issuelinks, issue.epicLink with
  | none, none => st
  | _, _ =>
    match mapGet st.map issue.key with
    | none => st
    | some fromWp =>
      let st₁ := handleEpic oracle issue fromWp st
      match issue.issuelinks with
      | none => st₁
      | some links => links.foldl (handleLink oracle issue fromWp) st₁

/-- Body of the retry loop (src/migrate-all.js lines 457-477): one
deferred triple is re-resolved against the identity map; a resolvable
triple gets exactly one more creation attempt, an unresolvable one is
only reported.  The catch branch of the loop never adds to the set. -/
def retryStep (oracle : RelOracle) (s : RelState) (rel : Triple) : RelState :=
  match mapGet s.map rel.fromKey, mapGet s.map rel.toKey with
  | some f, some t =>
    { s with attempts := s.attempts ++ [(f, t, rel.type, oracle f t rel.type)] }
  | some _, none => { s with reported := s.reported ++ [rel] }
  | none, _ => { s with reported := s.reported ++ [rel] }

/-- Embedding of retryMissingRelationships (src/migrate-all.js lines
446-478): an early return on an empty set, otherwise the set is copied
into an array, cleared, and retryStep runs once per deferred triple. -/
def retryMissingRelationships (oracle : RelOracle) (st : RelState) : RelState :=
  if st.missing.isEmpty then st
  else
    let retryList := st.missing
    let st₁ := { st with missing := [] }
    retryList.foldl (retryStep oracle) st₁

/-- Embedding of createRelationships (src/migrate-all.js lines 480-501):
seed the module map from the caller-provided object via Map.set, run
handleRelationships over every issue, then perform the single retry
sweep. -/
def createRelationships (oracle : RelOracle) (issues : List RelIssue)
    (seed : List (String × Nat)) (st : RelState) : RelState :=
  let st₁ := { st with map := seed.foldl (fun m kv => mapSet m kv.1 kv.2) st.map }
  let st₂ := issues.foldl (fun s i => handleRelationships oracle i s) st₁
  retryMissingRelationships oracle st₂

/-! ## Pre-existence check and error normalisation -/

/-- Read model for the structural parent link of a work package, as
returned by GET /work_packages/id. -/
structure ParentEnv where
  parent : Nat → Option Nat

/-- Embedding of checkParentRelationship (src/migrate-all.js lines
112-139): for "partof" the checked work package is fromId and the expected
parent toId; for any other hierarchical type ("includes") the checked work
package is toId and the expected parent fromId. -/
def checkParentRelationship (env : ParentEnv) (fromId toId : Nat)
    (type : String) : Bool :=
  let workPackageToCheck := if type == "partof" then fromId else toId
  let expectedParentId := if type == "partof" then toId else fromId
  match env.parent workPackageToCheck with
  | some parentId => parentId == expectedParentId
  | none => false

/-- Result of the POST creating a relation: success, or an HTTP error
carrying the messages of response.data._embedded.errors. -/
inductive PostResult : Type where
  | ok : PostResult
  | httpError (messages : List String) : PostResult

/-- How one createRelationship call ends: a fresh edge created, creation
skipped because the pre-existence check found the edge, an expected
failure message normalised to success, or an unexpected error logged (the
function never rethrows). -/
inductive RelationOutcome : Type where
  | created : RelationOutcome
  | skippedExisting : RelationOutcome
  | normalizedExisting : RelationOutcome
  | loggedError : RelationOutcome
deriving Repr, DecidableEq

/-- Embedding of the control flow of createRelationship
(src/migrate-all.js lines 254-322): the pre-existence check short-circuits
to a normal return; an error whose lower-cased messages contain
"already been taken" or "would create a circular" is treated as success;
any other error is logged and the function still returns normally. -/
def createRelationship (alreadyExists : Bool) (result : PostResult) :
    RelationOutcome :=
  if alreadyExists then .skippedExisting
  else
    match result with
    | .ok => .created
    | .httpError msgs =>
      let messages := msgs.map jsToLower
      if messages.any (fun m => jsIncludes m "already been taken") ||
         messages.any (fun m => jsIncludes m "would create a circular") then
        .normalizedExisting
      else .loggedError

/-- Result of the POST adding a watcher: success or an HTTP status
code. -/
inductive WatcherResult : Type where
  | ok : WatcherResult
  | httpStatus (status : Nat) : WatcherResult

/-- How one addWatcher call ends; the function never rethrows. -/
inductive WatcherOutcome : Type where
  | added : WatcherOutcome
  | alreadyWatching : WatcherOutcome
  | loggedError : WatcherOutcome
deriving Repr, DecidableEq

/-- Embedding of addWatcher (src/openproject-client.js lines 271-310): a
409 Conflict (watcher already present) is logged as already watching and
the function returns normally; every other error is logged; nothing is
rethrown. -/
def addWatcher (result : WatcherResult) : WatcherOutcome :=
  match result with
  | .ok => .added
  | .httpStatus s => if s == 409 then .alreadyWatching else .loggedError

/-! ## Entity synchroniser: the per-issue pipeline of migrateIssues
(src/migrate-all.js lines 648-953)

The model records the sequence of attempted mutations.  In dry-run mode
the source logs a "[DRY RUN] Would ..." line at exactly the places where
production mode performs the call; both are recorded as the same attempt
event.  Payload fields that no claim mentions (type/status/priority
hrefs, assignee and responsible links) are elided; the description is kept
because the placeholder substitution acts on it.  The creator accountId is
modelled as always present (Jira guarantees one; the source dereferences
issue.fields.creator.accountId unconditionally in production mode). -/

/-- Work-package identifier: a real numeric id, or the synthetic dry-run
placeholder string "DRY_RUN_WP_ID". -/
inductive WpId : Type where
  | real (id : Nat) : WpId
  | dryRunWpId : WpId
deriving Repr, DecidableEq

/-- Attachment identifier: a real numeric id, or the synthetic dry-run
placeholder string "DRY_RUN_ATTACHMENT_ID". -/
inductive AttId : Type where
  | real (id : Nat) : AttId
  | dryRunAttachmentId : AttId
deriving Repr, DecidableEq

/-- Decimal digit character. -/
def digitCharOf (n : Nat) : Char :=
  match n with
  | 0 => '0' | 1 => '1' | 2 => '2' | 3 => '3' | 4 => '4'
  | 5 => '5' | 6 => '6' | 7 => '7' | 8 => '8' | _ => '9'

/-- Fuelled accumulator loop producing the decimal digits of a natural
number, most significant first. -/
def natToCharsAux : Nat → Nat → List Char → List Char
  | 0, _, acc => acc
  | fuel + 1, n, acc =>
    if n < 10 then digitCharOf (n % 10) :: acc
    else natToCharsAux fuel (n / 10) (digitCharOf (n % 10) :: acc)

/-- Decimal rendering of a natural number, as a JavaScript template
literal renders a numeric identifier. -/
def natToString (n : Nat) : String := String.mk (natToCharsAux (n + 1) n [])

/-- Template-literal rendering of an attachment id into the inline image
tag. -/
def renderAttId : AttId → String
  | .real n => natToString n
  | .dryRunAttachmentId => "DRY_RUN_ATTACHMENT_ID"

/-- One attachment of a Jira issue (only the filename matters to the
pipeline; the binary transfer is an external collaborator). -/
structure Attachment where
  filename : String
deriving Repr, DecidableEq

/-- One Jira comment: identifier (a digit string, as matched by the
jira-comment-id marker regex), author account, creation date and body
document. -/
structure JiraComment where
  id : String
  authorAccountId : String
  created : Nat
  body : ADoc

/-- The part of a Jira issue consumed by the per-issue pipeline. -/
structure Issue where
  key : String
  description : ADoc
  creator : String
  attachment : Option (List Attachment)
  comments : Option (List JiraComment)
  watchCount : Nat

/-- Read responses the pipeline consumes for one issue: the existence
lookup, the attachment and comment listings, the watcher listing, the ids
the target system allocates, and the two user-mapping tables. -/
structure IssueEnv where
  existingWorkPackage : Option Nat
  existingAttachments : List (String × Nat)
  existingComments : List String
  watchers : List String
  createdWpId : Nat
  uploadedId : String → Nat
  userMapping : String → Option Nat
  commentUserMapping : Nat → Option String

/-- Chained lookup userMapping[accountId] then commentUserMapping[·]: the
impersonation identity used for writes attributed to a source author; an
undefined index propagates to undefined as in JavaScript. -/
def impersonationFor (env : IssueEnv) (accountId : String) : Option String :=
  match env.userMapping accountId with
  | none => none
  | some uid => env.commentUserMapping uid

/-- An attempted mutation, as recorded while the pipeline runs. -/
inductive Mutation : Type where
  | createWP (key : String) (descriptionRaw : String) (asUser : Option String) : Mutation
  | updateWP (id : Nat) (key : String) (descriptionRaw : String) (asUser : Option String) : Mutation
  | uploadAtt (id : WpId) (filename : String) (asUser : Option String) : Mutation
  | updateDescription (id : WpId) (finalDescription : String) (asUser : Option String) : Mutation
  | postComment (id : WpId) (jiraCommentId : String) (html : String) (asUser : Option String) : Mutation
  | watcherAdd (id : WpId) (userId : Nat) : Mutation
deriving Repr, DecidableEq

/-- The mode-independent shape of an attempted mutation: the constructor
together with every argument that does not embed a target-system
identifier (work-package ids, attachment ids and the strings they are
spliced into are dropped). -/
inductive MutKind : Type where
  | createWP (key : String) (asUser : Option String) : MutKind
  | updateWP (key : String) (asUser : Option String) : MutKind
  | uploadAtt (filename : String) (asUser : Option String) : MutKind
  | updateDescription (asUser : Option String) : MutKind
  | postComment (jiraCommentId : String) (asUser : Option String) : MutKind
  | watcherAdd (userId : Nat) : MutKind
deriving Repr, DecidableEq

/-- Projection of a recorded mutation to its mode-independent shape. -/
def mutationKind : Mutation → MutKind
  | .createWP key _ u => .createWP key u
  | .updateWP _ key _ u => .updateWP key u
  | .uploadAtt _ fn u => .uploadAtt fn u
  | .updateDescription _ _ u => .updateDescription u
  | .postComment _ cid _ u => .postComment cid u
  | .watcherAdd _ uid => .watcherAdd uid

/-- The placeholder token emitted for an attachment filename. -/
def placeholderFor (filename : String) : String :=
  "\x7b\x7bjira-attachment-placeholder:" ++ filename ++ "\x7d\x7d"

/-- The inline image markup substituted for a placeholder. -/
def imageTagFor (attId : String) : String :=
  "<img class=\"op-uc-image op-uc-image_inline\" src=\"/api/v3/attachments/"
    ++ attId ++ "/content\">"

/-- The substitution loop over attachmentIdMap.entries(): for each
(filename, id) pair one String.prototype.replace call, which replaces only
the first occurrence of that placeholder. -/
def substitutePlaceholders (raw : String) (attMap : List (String × String)) : String :=
  attMap.foldl (fun acc fv => jsReplace acc (placeholderFor fv.1) (imageTagFor fv.2)) raw

/-- Attachment step (src/migrate-all.js lines 771-812): production mode
lists the existing attachments, dry-run substitutes the empty listing;
already-present filenames record the existing id, new ones record an
upload attempt and the uploaded (or placeholder) id. -/
def processAttachments (isProd : Bool) (env : IssueEnv) (issue : Issue)
    (wpId : WpId) : List Mutation × List (String × AttId) :=
  match issue.attachment with
  | none => ([], [])
  | some atts =>
    if atts.isEmpty then ([], [])
    else
      let existingAtts := if isProd then env.existingAttachments else []
      let existingNames := existingAtts.map (fun a => a.1)
      let uploader := impersonationFor env issue.creator
      atts.foldl (fun acc att =>
        if existingNames.contains att.filename then
          match existingAtts.find? (fun a => a.1 == att.filename) with
          | some ex => (acc.1, mapSet acc.2 att.filename (.real ex.2))
          | none => (acc.1, acc.2)
        else if isProd then
          (acc.1 ++ [.uploadAtt wpId att.filename uploader],
           mapSet acc.2 att.filename (.real (env.uploadedId att.filename)))
        else
          (acc.1 ++ [.uploadAtt wpId att.filename uploader],
           mapSet acc.2 att.filename .dryRunAttachmentId)) ([], [])

/-- Extraction of the first jira-comment-id marker from a comment body:
the regular expression matching the literal "jira-comment-id: " inside an
HTML comment followed by one or more digits. -/
def matchMarkerAt (l : List Char) : Option String :=
  if startsWith l ("<!-- jira-comment-id: ".toList) then
    let rest := l.drop ("<!-- jira-comment-id: ".length)
    let digits := rest.takeWhile Char.isDigit
    if digits.isEmpty then none
    else if startsWith (rest.drop digits.length) (" -->".toList) then
      some (String.mk digits)
    else none
  else none

/-- First match of the marker regex anywhere in the string. -/
def findMarker : List Char → Option String
  | [] => none
  | a :: t =>
    match matchMarkerAt (a :: t) with
    | some d => some d
    | none => findMarker t

/-- Comment-loop body (src/migrate-all.js lines 863-935), returning the
posted-comment attempts and whether a comment body crashed the converter
(aborting the issue).  Production mode lists the existing comments and
skips those whose marker is already present; dry-run substitutes the
empty listing. -/
def processCommentList (isProd : Bool) (env : IssueEnv) (wpId : WpId)
    (attMapR : List (String × String)) (markers : List String) :
    List JiraComment → List Mutation × Bool
  | [] => ([], false)
  | c :: rest =>
    if markers.contains c.id then
      processCommentList isProd env wpId attMapR markers rest
    else
      match convertAtlassianDocumentToHtml c.body with
      | none => ([], true)
      | some html =>
        if html == "" then processCommentList isProd env wpId attMapR markers rest
        else
          let html₂ := if attMapR.isEmpty then html else substitutePlaceholders html attMapR
          let fullHtml := html₂ ++ "<!-- jira-comment-id: " ++ c.id ++ " -->"
          let opUser := impersonationFor env c.authorAccountId
          let res := processCommentList isProd env wpId attMapR markers rest
          (.postComment wpId c.id fullHtml opUser :: res.1, res.2)

/-- Comment step: guard on the presence and non-emptiness of the comment
collection, collection of the markers of existing comments, then the
loop. -/
def processComments (isProd : Bool) (env : IssueEnv) (wpId : WpId)
    (attMapR : List (String × String)) (comments : Option (List JiraComment)) :
    List Mutation × Bool :=
  match comments with
  | none => ([], false)
  | some cs =>
    if cs.isEmpty then ([], false)
    else
      let existingComments := if isProd then env.existingComments else []
      let markers := existingComments.filterMap (fun c => findMarker c.toList)
      processCommentList isProd env wpId attMapR markers cs

/-- Watcher step (src/migrate-all.js lines 937-953): when the source issue
has watchers, list them (in both modes) and attempt to add each one that
resolves through the user mapping. -/
def processWatchers (env : IssueEnv) (issue : Issue) (wpId : WpId) :
    List Mutation :=
  if issue.watchCount > 0 then
    env.watchers.filterMap (fun w =>
      match env.userMapping w with
      | some uid => some (.watcherAdd wpId uid)
      | none => none)
  else []

/-- Result of processing one issue: the attempted mutations in order, the
entries written into issueToWorkPackageMap, and the terminal state. -/
structure IssueOutcome where
  mutations : List Mutation
  mapEntries : List (String × WpId)
  skipped : Bool
  errored : Bool
deriving Repr, DecidableEq

/-- The work-package id the rest of the pipeline uses: the existing id
when updating (both modes), the created id in production, the synthetic
placeholder in dry-run. -/
def wpIdFor (isProd : Bool) (env : IssueEnv) : WpId :=
  match env.existingWorkPackage with
  | some ex => .real ex
  | none => if isProd then .real env.createdWpId else .dryRunWpId

/-- The create-or-update attempt, chosen by the existence lookup. -/
def createUpdFor (env : IssueEnv) (issue : Issue) (raw : String) : Mutation :=
  match env.existingWorkPackage with
  | some ex => .updateWP ex issue.key raw (impersonationFor env issue.creator)
  | none => .createWP issue.key raw (impersonationFor env issue.creator)

/-- Description finalisation (src/migrate-all.js lines 814-860): when the
attachment map is non-empty, substitute the placeholders and issue the
second description-only update exactly when the substitution changed the
rendered body. -/
def descMutsFor (raw : String) (wpId : WpId) (opUserCU : Option String)
    (attMap : List (String × AttId)) : List Mutation :=
  if attMap.isEmpty then []
  else
    let attMapR := attMap.map (fun p => (p.1, renderAttId p.2))
    let finalDescription := substitutePlaceholders raw attMapR
    if finalDescription == raw then []
    else [.updateDescription wpId finalDescription opUserCU]

/-- Normal path of the loop body once the description has been rendered:
create-or-update, map entry, attachments, description finalisation,
comments, watchers.  A comment body that crashes the converter marks the
issue errored and keeps the mutations attempted before the throw. -/
def processIssueBody (isProd : Bool) (env : IssueEnv) (issue : Issue)
    (raw : String) : IssueOutcome :=
  let opUserCU := impersonationFor env issue.creator
  let createUpd := createUpdFor env issue raw
  let wpId := wpIdFor isProd env
  let attStep := processAttachments isProd env issue wpId
  let attMapR := attStep.2.map (fun p => (p.1, renderAttId p.2))
  let descMuts := descMutsFor raw wpId opUserCU attStep.2
  let commentStep := processComments isProd env wpId attMapR issue.comments
  if commentStep.2 then
    { mutations := [createUpd] ++ attStep.1 ++ descMuts ++ commentStep.1,
      mapEntries := [(issue.key, wpId)], skipped := false, errored := true }
  else
    { mutations := [createUpd] ++ attStep.1 ++ descMuts ++ commentStep.1
        ++ processWatchers env issue wpId,
      mapEntries := [(issue.key, wpId)], skipped := false, errored := false }

/-- Embedding of the loop body of migrateIssues for one issue
(src/migrate-all.js lines 650-965): existence check, skip branch, payload
build (description conversion may throw, erroring the issue through the
per-issue try/catch), then the normal path. -/
def processIssue (isProd skipUpdates : Bool) (env : IssueEnv) (issue : Issue) :
    IssueOutcome :=
  match env.existingWorkPackage, skipUpdates with
  | some ex, true =>
    { mutations := [], mapEntries := [(issue.key, .real ex)],
      skipped := true, errored := false }
  | _, _ =>
    match convertAtlassianDocumentToHtml issue.description with
    | none => { mutations := [], mapEntries := [], skipped := false, errored := true }
    | some raw => processIssueBody isProd env issue raw

/-! ## Concrete scenarios used by the theorems -/

/-- An issuelinks entry declaring the outward "duplicates" link to issue
k created at c. -/
def dupLinkOutward (k : String) (c : Option Nat) : IssueLink :=
  ⟨"duplicates", "is duplicated by", some ⟨k, c⟩, none⟩

/-- An issuelinks entry declaring the inward "is duplicated by" link from
issue k created at c. -/
def dupLinkInward (k : String) (c : Option Nat) : IssueLink :=
  ⟨"duplicates", "is duplicated by", none, some ⟨k, c⟩⟩

/-- A symmetric "duplicates" pair: issue fk (created fc) declares the
outward duplicates link to sk (created sc); issue sk declares the inward
is-duplicated-by link back, exactly as Jira presents one link on both
issues. -/
def dupPair (fk : String) (fc : Nat) (sk : String) (sc : Nat) : List RelIssue :=
  [⟨fk, fc, some [dupLinkOutward sk (some sc)], none⟩,
   ⟨sk, sc, some [dupLinkInward fk (some fc)], none⟩]

/-- Every oracle answer is success; used where the outcome is
irrelevant. -/
def okOracle : RelOracle := fun _ _ _ => true

/-- Resolution of one deferred triple against the identity map, as the
retry sweep performs it: some attempt record when both endpoints resolve,
none otherwise. -/
def retryResolve (m : List (String × Nat)) (oracle : RelOracle) (t : Triple) :
    Option (Nat × Nat × String × Bool) :=
  match mapGet m t.fromKey, mapGet m t.toKey with
  | some f, some g => some (f, g, t.type, oracle f g t.type)
  | _, _ => none

/-- The empty relationship-module state. -/
def emptyRelState : RelState := ⟨[], [], [], []⟩

/-- Read responses for the dry-run comparison scenario: no work package
exists yet, and the attachment listing reports that a.png is already
attached (id 5). -/
def c8Env : IssueEnv :=
  { existingWorkPackage := none, existingAttachments := [("a.png", 5)],
    existingComments := [], watchers := [], createdWpId := 30,
    uploadedId := fun _ => 77, userMapping := fun _ => none,
    commentUserMapping := fun _ => none }

/-- The same read responses with an empty attachment listing. -/
def c8EnvEmpty : IssueEnv :=
  { existingWorkPackage := none, existingAttachments := [],
    existingComments := [], watchers := [], createdWpId := 30,
    uploadedId := fun _ => 77, userMapping := fun _ => none,
    commentUserMapping := fun _ => none }

/-- An issue carrying one attachment named a.png and nothing else. -/
def c8Issue : Issue :=
  { key := "K", description := .absent, creator := "c",
    attachment := some [⟨"a.png"⟩], comments := none, watchCount := 0 }

/-- Number of brace characters in a character list.  Placeholder tokens
are brace-delimited while the inline image markup contains no braces, so
every successful substitution strictly lowers this count — which is how
the description-changed test is compared across dry-run and production
mode. -/
def braceCount (l : List Char) : Nat :=
  l.countP (fun c => c == '\x7b' || c == '\x7d')

/-! ## Claim theorems -/

/-- C1: the claim states that for a symmetric "duplicates" pair with both
keys resolved exactly one relationship edge is created across the two
processing passes, during the pass of the earlier-created entity, the
mirror occurrence being suppressed by the timestamp comparison.  The code
violates this: the outward pass skips when the current issue is the newer
one (created > other.created) while the inward pass skips when the current
issue is the older one (created < other.created) — the same condition on
the pair read from both ends.  Hence when the duplicating (outward) issue
is the earlier-created one, both passes attempt creation (two attempts,
the mirror is not suppressed), and when it is the later-created one
neither pass does (zero attempts).  This theorem evaluates the embedded
createRelationships at the two failing inputs: the pair A (created 1)
duplicates B (created 2) with identity map A↦10, B↦20 yields two creation
attempts, and the pair A (created 2) duplicates B (created 1) yields
none. -/
theorem c1_duplicates_pair_double_or_none :
    (createRelationships okOracle (dupPair "A" 1 "B" 2) [("A", 10), ("B", 20)]
        emptyRelState).attempts
      = [(10, 20, "duplicates", true), (20, 10, "duplicated", true)]
    ∧ (createRelationships okOracle (dupPair "A" 2 "B" 1) [("A", 10), ("B", 20)]
        emptyRelState).attempts = [] := by
  exact ⟨rfl, rfl⟩

/-- C10: when the two issues of a "duplicates"/"is duplicated by" pair
have exactly equal creation timestamps, neither occurrence is suppressed:
the outward test created > other.created and the inward test
created < other.created are both strict and both false on equal
timestamps, so both passes resolve the link with shouldSkip = false, and
a concrete pair with equal timestamps produces an edge-creation attempt
from both processing passes (double-create, not skip). -/
theorem c10_equal_timestamps_double_create :
    (∀ (c : Nat) (k rk : String),
        linkResolution ⟨k, c, none, none⟩ (dupLinkOutward rk (some c))
          = some (rk, "duplicates", false)
      ∧ linkResolution ⟨k, c, none, none⟩ (dupLinkInward rk (some c))
          = some (rk, "duplicated", false))
    ∧ (createRelationships okOracle (dupPair "A" 5 "B" 5) [("A", 10), ("B", 20)]
        emptyRelState).attempts
      = [(10, 20, "duplicates", true), (20, 10, "duplicated", true)] := by
  refine ⟨fun c k rk => ⟨?_, ?_⟩, rfl⟩
  · simp [linkResolution, dupLinkOutward, jsGtOpt]
  · simp [linkResolution, dupLinkInward, jsLtOpt]

/-- C5: direction fidelity of child-of links.  An issue A carrying the
inward "is child of" link naming parent B maps to relationType "partof"
and, when both keys resolve, the edge-creation attempt runs from A's work
package to B's work package (A as child, never inverted, whatever the
processing order: the direction is fixed by A's own link entry).  The
pre-existence check is direction-sensitive: for "partof" it inspects the
structural parent of the from endpoint (A) expecting the to endpoint (B),
and for "includes" it inspects the parent of the to endpoint expecting
the from endpoint. -/
theorem c5_child_of_direction :
    (∀ (ot k rk : String) (c : Nat) (rc : Option Nat)
        (m : List (String × Nat)) (miss : List Triple)
        (att : List (Nat × Nat × String × Bool)) (rep : List Triple)
        (orc : RelOracle) (a b : Nat),
        mapGet m k = some a → mapGet m rk = some b →
        handleRelationships orc ⟨k, c, some [⟨ot, "is child of", none, some ⟨rk, rc⟩⟩], none⟩
            ⟨m, miss, att, rep⟩
          = ⟨m, miss, att ++ [(a, b, "partof", orc a b "partof")], rep⟩)
    ∧ (∀ (env : ParentEnv) (a b : Nat),
        (checkParentRelationship env a b "partof" = true ↔ env.parent a = some b)
      ∧ (checkParentRelationship env a b "includes" = true ↔ env.parent b = some a)) := by
  constructor
  · intro ot k rk c rc m miss att rep orc a b h₁ h₂
    simp [handleRelationships, handleEpic, handleLink, linkResolution, h₁, h₂]
  · intro env a b
    constructor
    · cases h : env.parent a <;> simp [checkParentRelationship, h]
    · cases h : env.parent b <;> simp [checkParentRelationship, h]

/-- Witness for C5 at a concrete input: issue A (work package 10)
declaring "is child of" B (work package 20) yields the single attempt
(10, 20, "partof"). -/
theorem c5_child_of_direction_witness :
    handleRelationships okOracle
        ⟨"A", 3, some [⟨"is parent of", "is child of", none, some ⟨"B", some 1⟩⟩], none⟩
        ⟨[("A", 10), ("B", 20)], [], [], []⟩
      = ⟨[("A", 10), ("B", 20)], [], [(10, 20, "partof", true)], []⟩ :=
  c5_child_of_direction.1 "is parent of" "A" "B" 3 (some 1)
    [("A", 10), ("B", 20)] [] [] [] okOracle 10 20 rfl rfl

/-- C9: expected non-error responses are normalised to success.  An
edge-creation POST answered with an error whose lower-cased messages
contain "already been taken" or "would create a circular" makes
createRelationship return normally through the normalised branch (not the
logged-error branch), and a watcher-addition answered with HTTP 409 makes
addWatcher return normally as already-watching; neither call rethrows. -/
theorem c9_expected_nonerrors_normalized :
    (∀ msgs : List String,
        ((msgs.map jsToLower).any (fun m => jsIncludes m "already been taken")
          || (msgs.map jsToLower).any (fun m => jsIncludes m "would create a circular"))
            = true →
        createRelationship false (.httpError msgs) = .normalizedExisting)
    ∧ addWatcher (.httpStatus 409) = .alreadyWatching := by
  constructor
  · intro msgs h
    simp only [createRelationship, h]
    rfl
  · rfl

/-- Witness for C9 at a concrete input: the OpenProject message
"Relation has already been taken" triggers the normalisation. -/
theorem c9_expected_nonerrors_normalized_witness :
    createRelationship false (.httpError ["Relation has already been taken"])
      = .normalizedExisting :=
  c9_expected_nonerrors_normalized.1 _ (by decide)

/-- C2 counterexample: the claim states that setting a key already
present in the identity map fails rather than replacing the existing
entry, and that an entry is never overwritten within a run.  The map is a
JavaScript Map and Map.prototype.set silently replaces: seeding the
relationship module whose map already binds "A" to 1 with the entry
("A", 2) leaves the map binding "A" to 2 — the existing entry is
overwritten and nothing fails. -/
theorem c2_counterexample_set_overwrites :
    mapSet [("A", 1)] "A" 2 = [("A", 2)]
    ∧ (createRelationships okOracle [] [("A", 2)] ⟨[("A", 1)], [], [], []⟩).map
        = [("A", 2)] :=
  ⟨rfl, rfl⟩

/-- Keys of mapSet: when the key is already bound the key list is
unchanged (the binding is replaced in place); otherwise the key is
appended. -/
theorem mapSet_keys {α : Type} (m : List (String × α)) (k : String) (v : α) :
    (mapSet m k v).map Prod.fst
      = if k ∈ m.map Prod.fst then m.map Prod.fst
        else m.map Prod.fst ++ [k] := by
  induction m with
  | nil => simp [mapSet]
  | cons p t ih =>
    obtain ⟨k₁, v₁⟩ := p
    by_cases h : (k₁ == k) = true
    · have hk : k₁ = k := by simpa using h
      subst hk
      simp [mapSet, h]
    · have hne : ¬k₁ = k := by simpa using h
      have hne₁ : ¬k = k₁ := fun hx => hne hx.symm
      by_cases hmem : k ∈ t.map Prod.fst
      · simp [mapSet, h, ih, hmem, hne₁]
      · simp [mapSet, h, ih, hmem, hne₁]

/-- C2 amended: the identity map holds at most one binding per key, and
every writer (recording a skipped existing work package, recording a
created or updated one, seeding the relationship module) goes through
Map.prototype.set, which silently replaces an existing binding instead of
failing: key uniqueness is preserved, the written key afterwards maps to
the new value, and the binding of every other key is untouched — hence a
run whose writers only ever set pairwise-distinct keys never overwrites
an entry, but a repeated key replaces the old value rather than fail. -/
theorem c2_amended_map_set_semantics :
    ∀ (m : List (String × Nat)) (k : String) (v : Nat),
      ((m.map Prod.fst).Nodup → ((mapSet m k v).map Prod.fst).Nodup)
      ∧ mapGet (mapSet m k v) k = some v
      ∧ ∀ k₁, k₁ ≠ k → mapGet (mapSet m k v) k₁ = mapGet m k₁ := by
  intro m k v
  refine ⟨?_, ?_, ?_⟩
  · intro hnd
    rw [mapSet_keys]
    by_cases hk : k ∈ m.map Prod.fst
    · simpa [hk] using hnd
    · simp [hk, List.nodup_append, hnd]
  · induction m with
    | nil => simp [mapSet, mapGet]
    | cons p t ih =>
      obtain ⟨k₁, v₁⟩ := p
      by_cases h : (k₁ == k) = true
      · simp [mapSet, h, mapGet]
      · simp [mapSet, h, mapGet, ih]
  · intro k₁ hne
    induction m with
    | nil =>
      have : ¬(k == k₁) = true := by simpa using fun h => hne h.symm
      simp [mapSet, mapGet, this]
    | cons p t ih =>
      obtain ⟨k₂, v₂⟩ := p
      by_cases h : (k₂ == k) = true
      · have hk : k₂ = k := by simpa using h
        subst hk
        have h₁ : ¬(k₂ == k₁) = true := by simpa using fun h => hne h.symm
        simp [mapSet, mapGet, h₁]
      · by_cases h₂ : (k₂ == k₁) = true
        · simp [mapSet, mapGet, h, h₂]
        · simp [mapSet, mapGet, h, h₂, ih]

/-- Witness for C2 amended at a concrete input: inserting a fresh key
keeps the keys duplicate-free, binds it, and leaves "A" untouched. -/
theorem c2_amended_map_set_semantics_witness :
    ((mapSet [("A", 1), ("B", 2)] "C" 3).map Prod.fst).Nodup
    ∧ mapGet (mapSet [("A", 1), ("B", 2)] "C" 3) "C" = some 3
    ∧ mapGet (mapSet [("A", 1), ("B", 2)] "C" 3) "A" = some 1 :=
  ⟨(c2_amended_map_set_semantics [("A", 1), ("B", 2)] "C" 3).1 (by decide),
   (c2_amended_map_set_semantics [("A", 1), ("B", 2)] "C" 3).2.1,
   (c2_amended_map_set_semantics [("A", 1), ("B", 2)] "C" 3).2.2 "A" (by decide)⟩

/-- Adding a triple to the deduplicated set keeps it duplicate-free. -/
theorem setAdd_nodup {s : List Triple} {t : Triple} (h : s.Nodup) :
    (setAdd s t).Nodup := by
  unfold setAdd
  by_cases ht : t ∈ s
  · simpa [ht]
  · simp [ht, List.nodup_append, h]

/-- handleLink can only extend the missing set through setAdd, so it
keeps the set duplicate-free. -/
theorem handleLink_missing_nodup (orc : RelOracle) (i : RelIssue) (fw : Nat)
    (st : RelState) (l : IssueLink) (h : st.missing.Nodup) :
    (handleLink orc i fw st l).missing.Nodup := by
  unfold handleLink
  split
  · exact h
  · split
    · exact h
    · split
      · exact h
      · exact setAdd_nodup h

/-- The link loop of handleRelationships keeps the missing set
duplicate-free. -/
theorem foldl_handleLink_missing_nodup (orc : RelOracle) (i : RelIssue) (fw : Nat) :
    ∀ (links : List IssueLink) (st : RelState), st.missing.Nodup →
      (links.foldl (handleLink orc i fw) st).missing.Nodup := by
  intro links
  induction links with
  | nil => intro st h; exact h
  | cons l t ih =>
    intro st h
    exact ih _ (handleLink_missing_nodup orc i fw st l h)

/-- The epic-link block keeps the missing set duplicate-free. -/
theorem handleEpic_missing_nodup (orc : RelOracle) (i : RelIssue) (fw : Nat)
    (st : RelState) (h : st.missing.Nodup) :
    (handleEpic orc i fw st).missing.Nodup := by
  unfold handleEpic
  split
  · exact h
  · split
    · exact h
    · exact setAdd_nodup h

/-- handleRelationships keeps the missing set duplicate-free. -/
theorem handleRelationships_missing_nodup (orc : RelOracle) (i : RelIssue)
    (st : RelState) (h : st.missing.Nodup) :
    (handleRelationships orc i st).missing.Nodup := by
  unfold handleRelationships
  split
  · exact h
  · split
    · exact h
    · next fw _ =>
      have h₁ := handleEpic_missing_nodup orc i fw st h
      split
      · exact h₁
      · exact foldl_handleLink_missing_nodup orc i fw _ _ h₁

/-- The retry loop never touches the missing set. -/
theorem foldl_retryStep_missing (oracle : RelOracle) :
    ∀ (l : List Triple) (s : RelState),
      (l.foldl (retryStep oracle) s).missing = s.missing := by
  intro l
  induction l with
  | nil => intro s; rfl
  | cons t l ih =>
    intro s
    have hstep : (retryStep oracle s t).missing = s.missing := by
      unfold retryStep
      split <;> rfl
    calc ((t :: l).foldl (retryStep oracle) s).missing
        = (l.foldl (retryStep oracle) (retryStep oracle s t)).missing := rfl
      _ = (retryStep oracle s t).missing := ih _
      _ = s.missing := hstep

/-- The retry sweep leaves the deferred set empty, whatever the creation
outcomes. -/
theorem retryMissingRelationships_missing_empty (oracle : RelOracle)
    (st : RelState) : (retryMissingRelationships oracle st).missing = [] := by
  unfold retryMissingRelationships
  split
  · next hempty => simpa using hempty
  · rw [foldl_retryStep_missing]

/-- C6: the deferred relationship set contains each (fromKey, toKey,
relationType) triple at most once — every insertion goes through the
value-deduplicating setAdd, so the main pass preserves duplicate-freeness
— and once the retry pass begins the set is only drained: the sweep
empties it at its start and no element is ever added back, whatever
outcome the oracle reports for each retried creation, so after
createRelationships (main pass followed by the single retry sweep) the
set is empty. -/
theorem c6_deferred_set_invariants :
    ∀ (oracle : RelOracle) (issues : List RelIssue)
      (seed : List (String × Nat)) (st : RelState),
      (st.missing.Nodup →
        (issues.foldl (fun s i => handleRelationships oracle i s) st).missing.Nodup)
      ∧ (retryMissingRelationships oracle st).missing = []
      ∧ (createRelationships oracle issues seed st).missing = [] := by
  intro oracle issues seed st
  refine ⟨?_, retryMissingRelationships_missing_empty oracle st, ?_⟩
  · intro h
    induction issues generalizing st with
    | nil => exact h
    | cons i t ih => exact ih _ (handleRelationships_missing_nodup oracle i st h)
  · unfold createRelationships
    exact retryMissingRelationships_missing_empty oracle _

/-- Witness for C6 at a concrete input: a pair of issues deferring one
triple each; the main pass keeps the set duplicate-free and the full run
drains it. -/
theorem c6_deferred_set_invariants_witness :
    (([⟨"A", 1, some [dupLinkOutward "C" (some 9)], none⟩] :
          List RelIssue).foldl (fun s i => handleRelationships okOracle i s)
        ⟨[("A", 10)], [], [], []⟩).missing.Nodup
    ∧ (retryMissingRelationships okOracle ⟨[("A", 10)], [], [], []⟩).missing = []
    ∧ (createRelationships okOracle [⟨"A", 1, some [dupLinkOutward "C" (some 9)], none⟩]
        [("A", 10)] ⟨[], [], [], []⟩).missing = [] :=
  ⟨(c6_deferred_set_invariants okOracle _ [] ⟨[("A", 10)], [], [], []⟩).1 (by decide),
   (c6_deferred_set_invariants okOracle [] [] ⟨[("A", 10)], [], [], []⟩).2.1,
   (c6_deferred_set_invariants okOracle _ [("A", 10)] ⟨[], [], [], []⟩).2.2⟩

/-- The retry sweep is a no-op on a state whose deferred set is already
empty (the early return of retryMissingRelationships). -/
theorem retryMissingRelationships_of_empty (oracle : RelOracle) (s : RelState)
    (h : s.missing = []) : retryMissingRelationships oracle s = s := by
  unfold retryMissingRelationships
  simp [h]

/-- The retry loop, characterised: starting from a state, folding the
deferred list appends one attempt per resolvable triple and one report
line per unresolvable one, and changes nothing else. -/
theorem foldl_retryStep_spec (oracle : RelOracle) :
    ∀ (l : List Triple) (s : RelState),
      l.foldl (retryStep oracle) s
        = { s with
            attempts := s.attempts ++ l.filterMap (retryResolve s.map oracle),
            reported := s.reported
              ++ l.filter (fun t => (retryResolve s.map oracle t).isNone) } := by
  intro l
  induction l with
  | nil => intro s; cases s; simp
  | cons t l ih =>
    intro s
    have hfold : (t :: l).foldl (retryStep oracle) s
        = l.foldl (retryStep oracle) (retryStep oracle s t) := rfl
    rw [hfold, ih]
    unfold retryStep retryResolve
    cases h₁ : mapGet s.map t.fromKey with
    | none => simp [h₁, retryResolve]
    | some f =>
      cases h₂ : mapGet s.map t.toKey with
      | none => simp [h₁, h₂, retryResolve]
      | some g => simp [h₁, h₂, retryResolve]

/-- C7: after the main pass, exactly one retry sweep runs over the
deferred set: every deferred triple is re-resolved against the identity
map; a triple whose endpoints both resolve produces exactly one more
creation attempt, and a triple still unresolved is only appended to the
report and produces no attempt; the set is empty afterwards, and running
the sweep again is a no-op (nothing is ever retried a second time within
the run). -/
theorem c7_single_retry_sweep :
    ∀ (oracle : RelOracle) (st : RelState),
      retryMissingRelationships oracle st
        = { st with
            missing := [],
            attempts := st.attempts ++ st.missing.filterMap (retryResolve st.map oracle),
            reported := st.reported
              ++ st.missing.filter (fun t => (retryResolve st.map oracle t).isNone) }
      ∧ retryMissingRelationships oracle (retryMissingRelationships oracle st)
          = retryMissingRelationships oracle st := by
  intro oracle st
  have hmain : retryMissingRelationships oracle st
      = { st with
          missing := [],
          attempts := st.attempts ++ st.missing.filterMap (retryResolve st.map oracle),
          reported := st.reported
            ++ st.missing.filter (fun t => (retryResolve st.map oracle t).isNone) } := by
    unfold retryMissingRelationships
    split
    · next hempty =>
      have : st.missing = [] := by simpa using hempty
      cases st
      simp_all
    · rw [foldl_retryStep_spec]
  refine ⟨hmain, ?_⟩
  have hempty : (retryMissingRelationships oracle st).missing = [] :=
    retryMissingRelationships_missing_empty oracle st
  exact retryMissingRelationships_of_empty oracle _ hempty

/-- A well-formed mark always applies without throwing. -/
theorem applyMark_total (text : String) (m : Mark) (h : wfMark m = true) :
    (applyMark text m).isSome = true := by
  unfold applyMark
  split_ifs with h₁ h₂ h₃ h₄
  · rfl
  · rfl
  · rfl
  · cases hh : m.href with
    | none =>
      exfalso
      unfold wfMark at h
      rw [h₄, hh] at h
      simp at h
    | some href => simp
  · rfl

/-- Well-formed marks apply in sequence without throwing. -/
theorem applyMarks_total : ∀ (ms : List Mark) (text : String),
    ms.all wfMark = true → (applyMarks ms text).isSome = true
  | [], _, _ => rfl
  | m :: rest, text, h => by
    obtain ⟨h₁, h₂⟩ : wfMark m = true ∧ rest.all wfMark = true := by simpa using h
    obtain ⟨t₁, ht₁⟩ := Option.isSome_iff_exists.mp (applyMark_total text m h₁)
    simp only [applyMarks, ht₁]
    exact applyMarks_total rest t₁ h₂

/-- The type switch never throws when the node satisfies the
per-type well-formedness conditions. -/
theorem renderNode_total (t : String) (tx : Option String)
    (mks : Option (List Mark)) (ats : Option NodeAttrs) (s : String)
    (hatext : (!(t == "text") || (tx.isSome && wfMarks mks)) = true)
    (hheading : (!(t == "heading") || ats.isSome) = true)
    (hmedia : (!(t == "media") || ats.isSome) = true) :
    (renderNode t tx mks ats s).isSome = true := by
  unfold renderNode
  split
  · rfl
  · rfl
  · -- text
    simp only [Bool.not_true, Bool.false_or, Bool.and_eq_true,
      show (("text" : String) == "text") = true from rfl] at hatext
    obtain ⟨htx, hmk⟩ := hatext
    obtain ⟨txt, htxt⟩ := Option.isSome_iff_exists.mp htx
    rw [htxt]
    cases mks with
    | none => rfl
    | some ms => exact applyMarks_total ms (escapeText txt) (by simpa [wfMarks] using hmk)
  · rfl
  · rfl
  · rfl
  · -- heading
    simp only [Bool.not_true, Bool.false_or,
      show (("heading" : String) == "heading") = true from rfl] at hheading
    obtain ⟨a, ha⟩ := Option.isSome_iff_exists.mp hheading
    rw [ha]
    rfl
  · rfl
  · rfl
  · rfl
  · rfl
  · rfl
  · rfl
  · rfl
  · rfl
  · -- media
    simp only [Bool.not_true, Bool.false_or,
      show (("media" : String) == "media") = true from rfl] at hmedia
    obtain ⟨a, ha⟩ := Option.isSome_iff_exists.mp hmedia
    rw [ha]
    have hif : ∀ (b : Bool) (x : String), (if b = true then some x else some "").isSome = true := by
      intro b x
      cases b <;> rfl
    exact hif _ _
  · rfl

/-- An unrecognised node type falls to the default arm of the switch,
rendering only the concatenated children. -/
theorem renderNode_unknown (ty : String) (tx : Option String)
    (mks : Option (List Mark)) (ats : Option NodeAttrs) (s : String)
    (h : ty ∉ knownNodeTypes) : renderNode ty tx mks ats s = some s := by
  unfold renderNode
  split
  all_goals first
    | rfl
    | (exfalso; exact h (by simp [knownNodeTypes]))

mutual

/-- A well-formed node renders without throwing. -/
theorem processNode_total : ∀ (n : JNode), wfNode n = true → (processNode n).isSome = true
  | .jnull, _ => rfl
  | .node ty tx mks ats ct, h => by
    cases ty with
    | none => simp [processNode]
    | some t =>
      simp only [wfNode, Bool.and_eq_true] at h
      obtain ⟨hc, ⟨hatext, hheading⟩, hmedia⟩ := h
      obtain ⟨s, hs⟩ := Option.isSome_iff_exists.mp (renderContent_total ct hc)
      simp only [processNode, hs]
      exact renderNode_total t tx mks ats s hatext hheading hmedia

/-- Well-formed content renders without throwing. -/
theorem renderContent_total : ∀ (ct : Option (List JNode)),
    wfContent ct = true → (renderContent ct).isSome = true
  | none, _ => rfl
  | some cs, h => renderList_total cs (by simpa [wfContent] using h)

/-- A well-formed node list renders without throwing. -/
theorem renderList_total : ∀ (l : List JNode), wfList l = true → (renderList l).isSome = true
  | [], _ => rfl
  | n :: t, h => by
    obtain ⟨h₁, h₂⟩ : wfNode n = true ∧ wfList t = true := by simpa [wfList] using h
    obtain ⟨s, hs⟩ := Option.isSome_iff_exists.mp (processNode_total n h₁)
    obtain ⟨r, hr⟩ := Option.isSome_iff_exists.mp (renderList_total t h₂)
    simp [renderList, hs, hr]

end

/-- C3 counterexample: the claim states the converter is total on every
input including malformed nodes, but the code dereferences missing
properties and throws: a text node without a text field, a heading node
without an attrs object, a media node without attrs, and a link mark
without attrs all make processNode throw a TypeError (modelled as none),
so convertAtlassianDocumentToHtml does not return a string there. -/
theorem c3_counterexample_converter_throws :
    convertAtlassianDocumentToHtml (.tree (.node (some "text") none none none none)) = none
    ∧ convertAtlassianDocumentToHtml (.tree (.node (some "heading") none none none none)) = none
    ∧ convertAtlassianDocumentToHtml (.tree (.node (some "media") none none none none)) = none
    ∧ convertAtlassianDocumentToHtml
        (.tree (.node (some "text") (some "hi") (some [⟨"link", none⟩]) none none)) = none :=
  ⟨rfl, rfl, rfl, rfl⟩

/-- C3 amended: the converter is total on well-formed documents — those
whose text nodes carry text and well-formed marks and whose heading and
media nodes carry attrs (exactly the fields the code dereferences) — and
on them behaves as claimed: a node of an unrecognised type renders as the
concatenation of its rendered children, and a heading whose attrs lack
the level renders exactly as a heading of level 1. -/
theorem c3_amended_converter_totality :
    (∀ d : ADoc, wfDoc d = true → (convertAtlassianDocumentToHtml d).isSome = true)
    ∧ (∀ (ty : String) (tx : Option String) (mks : Option (List Mark))
        (ats : Option NodeAttrs) (cs : List JNode),
        ty ∉ knownNodeTypes →
        processNode (.node (some ty) tx mks ats (some cs)) = renderList cs)
    ∧ (∀ (tx : Option String) (mks : Option (List Mark)) (t₂ a₂ : Option String)
        (ct : Option (List JNode)),
        processNode (.node (some "heading") tx mks (some ⟨none, t₂, a₂⟩) ct)
          = processNode (.node (some "heading") tx mks (some ⟨some 1, t₂, a₂⟩) ct)) := by
  refine ⟨?_, ?_, ?_⟩
  · intro d hd
    cases d with
    | absent => rfl
    | str s =>
      simp only [convertAtlassianDocumentToHtml]
      split_ifs <;> rfl
    | tree n => exact processNode_total n (by simpa [wfDoc] using hd)
  · intro ty tx mks ats cs h
    cases hr : renderList cs with
    | none => simp [processNode, renderContent, hr]
    | some c => simp [processNode, renderContent, hr, renderNode_unknown ty tx mks ats c h]
  · intro tx mks t₂ a₂ ct
    rfl

/-- Witness for C3 amended at concrete inputs: a well-formed paragraph
renders, an unrecognised "panel" node renders its child, and a heading
without a level renders as level 1. -/
theorem c3_amended_converter_totality_witness :
    (convertAtlassianDocumentToHtml (.tree (.node (some "paragraph") none none none
        (some [.node (some "text") (some "hi") none none none])))).isSome = true
    ∧ processNode (.node (some "panel") none none none
          (some [.node (some "text") (some "x") none none none]))
        = renderList [.node (some "text") (some "x") none none none]
    ∧ processNode (.node (some "heading") none none (some ⟨none, none, none⟩)
          (some [.node (some "text") (some "x") none none none]))
        = processNode (.node (some "heading") none none (some ⟨some 1, none, none⟩)
            (some [.node (some "text") (some "x") none none none])) :=
  ⟨c3_amended_converter_totality.1 _ (by decide),
   c3_amended_converter_totality.2.1 "panel" none none none _ (by decide),
   c3_amended_converter_totality.2.2 none none none none _⟩

/-! ## Lemmas on the JavaScript string primitives -/

/-- A prefix is no longer than the list. -/
theorem startsWith_length : ∀ (l pat : List Char),
    startsWith l pat = true → pat.length ≤ l.length
  | _, [], _ => Nat.zero_le _
  | [], _ :: _, h => by simp [startsWith] at h
  | a :: as, b :: bs, h => by
    obtain ⟨h₁, h₂⟩ : (a == b) = true ∧ startsWith as bs = true := by
      simpa [startsWith] using h
    simpa using Nat.succ_le_succ (startsWith_length as bs h₂)

/-- A matching prefix splits the list. -/
theorem startsWith_eq_append : ∀ (l pat : List Char),
    startsWith l pat = true → l = pat ++ l.drop pat.length
  | _, [], _ => by simp
  | [], _ :: _, h => by simp [startsWith] at h
  | a :: as, b :: bs, h => by
    obtain ⟨h₁, h₂⟩ : (a == b) = true ∧ startsWith as bs = true := by
      simpa [startsWith] using h
    have hab : a = b := by simpa using h₁
    subst hab
    calc a :: as = a :: (bs ++ as.drop bs.length) := by
          rw [← startsWith_eq_append as bs h₂]
      _ = (a :: bs) ++ as.drop bs.length := rfl

/-- A prefix of a list is a prefix of any extension of the list. -/
theorem startsWith_append_left : ∀ (u pat v : List Char),
    startsWith u pat = true → startsWith (u ++ v) pat = true
  | u, [], v, _ => by cases u ++ v <;> rfl
  | [], _ :: _, _, h => by simp [startsWith] at h
  | a :: as, b :: bs, v, h => by
    obtain ⟨h₁, h₂⟩ : (a == b) = true ∧ startsWith as bs = true := by
      simpa [startsWith] using h
    simpa [startsWith, h₁] using startsWith_append_left as bs v h₂

/-- replace is the identity when the pattern does not occur. -/
theorem replaceFirstL_no_match : ∀ (l pat rep : List Char),
    hasSub l pat = false → replaceFirstL l pat rep = l
  | [], pat, rep, h => by
    have hsw : startsWith [] pat = false := h
    simp [replaceFirstL, hsw]
  | a :: t, pat, rep, h => by
    obtain ⟨h₁, h₂⟩ : startsWith (a :: t) pat = false ∧ hasSub t pat = false := by
      simpa [hasSub] using h
    simp [replaceFirstL, h₁, replaceFirstL_no_match t pat rep h₂]

/-- Specification of replace on an occurring pattern: the list splits at
the first occurrence — the prefix before it contains no occurrence — and
exactly that occurrence is replaced. -/
theorem replaceFirstL_spec : ∀ (l pat rep : List Char), pat ≠ [] →
    hasSub l pat = true →
    ∃ a b : List Char,
      l = a ++ pat ++ b
      ∧ replaceFirstL l pat rep = a ++ rep ++ b
      ∧ hasSub a pat = false
  | l, pat, rep, hne, h => by
    cases hsw : startsWith l pat with
    | true =>
      refine ⟨[], l.drop pat.length, ?_, ?_, ?_⟩
      · simpa using startsWith_eq_append l pat hsw
      · cases l <;> simp [replaceFirstL, hsw]
      · cases pat with
        | nil => exact absurd rfl hne
        | cons p ps => rfl
    | false =>
      cases l with
      | nil =>
        rw [show hasSub [] pat = startsWith [] pat from rfl, hsw] at h
        exact absurd h (by simp)
      | cons x t =>
        have ht : hasSub t pat = true := by
          have hdef : hasSub (x :: t) pat = (startsWith (x :: t) pat || hasSub t pat) := rfl
          rw [hdef, hsw] at h
          simpa using h
        obtain ⟨a, b, he, hr, hn⟩ := replaceFirstL_spec t pat rep hne ht
        refine ⟨x :: a, b, by simp [he], ?_, ?_⟩
        · simp [replaceFirstL, hsw, hr]
        · cases hsw₂ : startsWith (x :: a) pat with
          | false =>
            have hdef : hasSub (x :: a) pat = (startsWith (x :: a) pat || hasSub a pat) := rfl
            rw [hdef, hsw₂, hn]
            rfl
          | true =>
            exfalso
            have hx : startsWith ((x :: a) ++ (pat ++ b)) pat = true :=
              startsWith_append_left _ _ _ hsw₂
            rw [show (x :: a) ++ (pat ++ b) = x :: t from by simp [he]] at hx
            rw [hx] at hsw
            exact Bool.true_eq_false.mp hsw

/-- jsReplace is the identity when the pattern does not occur. -/
theorem jsReplace_no_match (s pat rep : String) (h : jsIncludes s pat = false) :
    jsReplace s pat rep = s := by
  unfold jsReplace
  rw [replaceFirstL_no_match _ _ _ h]
  rfl

/-- C4 counterexample: the claim states that every occurrence of a
matching placeholder token is replaced, but JavaScript
String.prototype.replace with a string pattern replaces only the first
occurrence: a description holding the token for diagram.png twice, with
an uploaded artifact for diagram.png, keeps the second token verbatim
after substitution. -/
theorem c4_counterexample_second_occurrence_kept :
    substitutePlaceholders
        ("A" ++ placeholderFor "diagram.png" ++ "B" ++ placeholderFor "diagram.png")
        [("diagram.png", "7")]
      = "A" ++ imageTagFor "7" ++ "B" ++ placeholderFor "diagram.png"
    ∧ jsIncludes
        (substitutePlaceholders
          ("A" ++ placeholderFor "diagram.png" ++ "B" ++ placeholderFor "diagram.png")
          [("diagram.png", "7")])
        (placeholderFor "diagram.png") = true :=
  ⟨rfl, rfl⟩

/-- C4 amended: substitution after artifact upload replaces, for each
uploaded or existing artifact, the first occurrence of its placeholder
token in the rendered description by the inline image markup; later
occurrences of the same token stay, every token with no matching artifact
stays verbatim, and the substitution is a no-op when no entry's token
occurs (in particular when no matching artifact was uploaded). -/
theorem c4_amended_first_occurrence_substitution :
    (∀ (raw : String) (m : List (String × String)),
        (∀ p ∈ m, jsIncludes raw (placeholderFor p.1) = false) →
        substitutePlaceholders raw m = raw)
    ∧ (∀ (raw f id : String), jsIncludes raw (placeholderFor f) = true →
        ∃ a b : List Char,
          raw.toList = a ++ (placeholderFor f).toList ++ b
          ∧ (substitutePlaceholders raw [(f, id)]).toList
              = a ++ (imageTagFor id).toList ++ b
          ∧ hasSub a (placeholderFor f).toList = false) := by
  constructor
  · intro raw m
    induction m generalizing raw with
    | nil => intro _; rfl
    | cons p t ih =>
      intro h
      have hstep : substitutePlaceholders raw (p :: t)
          = substitutePlaceholders (jsReplace raw (placeholderFor p.1) (imageTagFor p.2)) t := rfl
      rw [hstep, jsReplace_no_match _ _ _ (h p (by simp))]
      exact ih raw (fun q hq => h q (by simp [hq]))
  · intro raw f id h
    have hne : (placeholderFor f).toList ≠ [] := by
      have hd : (placeholderFor f).toList
          = ("\x7b\x7bjira-attachment-placeholder:".toList ++ f.toList)
            ++ "\x7d\x7d".toList := by
        simp [placeholderFor, String.toList, String.data_append]
      rw [hd]
      intro hx
      rcases List.append_eq_nil.mp hx with ⟨-, h2⟩
      exact absurd h2 (by decide)
    obtain ⟨a, b, he, hr, hn⟩ :=
      replaceFirstL_spec raw.toList (placeholderFor f).toList (imageTagFor id).toList hne h
    exact ⟨a, b, he, hr, hn⟩

/-- Witness for C4 amended at concrete inputs: substitution with no
matching token is a no-op, and a description holding one token has it
replaced by the image markup. -/
theorem c4_amended_first_occurrence_substitution_witness :
    substitutePlaceholders "nothing here" [("a.png", "7")] = "nothing here"
    ∧ ∃ a b : List Char,
        ("X" ++ placeholderFor "a.png" ++ "Y").toList
            = a ++ (placeholderFor "a.png").toList ++ b
        ∧ (substitutePlaceholders ("X" ++ placeholderFor "a.png" ++ "Y")
            [("a.png", "9")]).toList
            = a ++ (imageTagFor "9").toList ++ b
        ∧ hasSub a (placeholderFor "a.png").toList = false :=
  ⟨c4_amended_first_occurrence_substitution.1 "nothing here" [("a.png", "7")] (by decide),
   c4_amended_first_occurrence_substitution.2 ("X" ++ placeholderFor "a.png" ++ "Y")
     "a.png" "9" (by decide)⟩

/-! ## Brace counting: how the description-changed test is compared
across modes -/

/-- Counting distributes over append. -/
theorem braceCount_append (a b : List Char) :
    braceCount (a ++ b) = braceCount a + braceCount b :=
  List.countP_append _ a b

/-- Digit characters are never braces. -/
theorem digitCharOf_no_brace (n : Nat) :
    ((digitCharOf n == '\x7b') || (digitCharOf n == '\x7d')) = false := by
  unfold digitCharOf
  split <;> rfl

/-- The decimal rendering of a natural number contains no braces. -/
theorem natToCharsAux_no_brace : ∀ (fuel n : Nat) (acc : List Char),
    (∀ c ∈ acc, ((c == '\x7b') || (c == '\x7d')) = false) →
    ∀ c ∈ natToCharsAux fuel n acc, ((c == '\x7b') || (c == '\x7d')) = false
  | 0, _, _, h => h
  | fuel + 1, n, acc, h => by
    unfold natToCharsAux
    split
    · intro c hc
      rcases List.mem_cons.mp hc with h₁ | h₁
      · subst h₁
        exact digitCharOf_no_brace _
      · exact h c h₁
    · refine natToCharsAux_no_brace fuel _ _ ?_
      intro c hc
      rcases List.mem_cons.mp hc with h₁ | h₁
      · subst h₁
        exact digitCharOf_no_brace _
      · exact h c h₁

/-- A list free of braces counts zero. -/
theorem braceCount_eq_zero {l : List Char}
    (h : ∀ c ∈ l, ((c == '\x7b') || (c == '\x7d')) = false) : braceCount l = 0 := by
  unfold braceCount
  rw [List.countP_eq_zero]
  intro a ha
  simp [h a ha]

/-- A rendered attachment identifier — decimal digits in production mode,
the placeholder string in dry-run mode — contains no braces. -/
theorem renderAttId_no_brace (a : AttId) : braceCount (renderAttId a).toList = 0 := by
  cases a with
  | real n =>
    have hd : (renderAttId (.real n)).toList = natToCharsAux (n + 1) n [] := rfl
    rw [hd]
    refine braceCount_eq_zero (natToCharsAux_no_brace (n + 1) n [] ?_)
    intro c hc
    simp at hc
  | dryRunAttachmentId => decide

/-- The inline image markup around a brace-free identifier contains no
braces. -/
theorem imageTagFor_no_brace (id : String) (h : braceCount id.toList = 0) :
    braceCount (imageTagFor id).toList = 0 := by
  have hd : (imageTagFor id).toList
      = "<img class=\"op-uc-image op-uc-image_inline\" src=\"/api/v3/attachments/".toList
        ++ id.toList ++ "/content\">".toList := by
    simp [imageTagFor, String.toList, String.data_append]
  rw [hd, braceCount_append, braceCount_append, h]
  rw [show braceCount
      "<img class=\"op-uc-image op-uc-image_inline\" src=\"/api/v3/attachments/".toList
      = 0 from by decide]
  rw [show braceCount "/content\">".toList = 0 from by decide]

/-- A placeholder token starts with an opening brace. -/
theorem placeholderFor_head (f : String) :
    ∃ r, (placeholderFor f).toList = '\x7b' :: r := by
  have hd : (placeholderFor f).toList
      = "\x7b\x7bjira-attachment-placeholder:".toList ++ f.toList
        ++ "\x7d\x7d".toList := by
    simp [placeholderFor, String.toList, String.data_append]
  exact ⟨("\x7bjira-attachment-placeholder:".toList ++ f.toList)
    ++ "\x7d\x7d".toList, by rw [hd]; rfl⟩

/-- A placeholder token is a non-empty character list. -/
theorem placeholderFor_ne_nil (f : String) : (placeholderFor f).toList ≠ [] := by
  obtain ⟨r, hr⟩ := placeholderFor_head f
  rw [hr]
  simp

/-- A placeholder token contains at least one brace. -/
theorem placeholderFor_braceCount_pos (f : String) :
    1 ≤ braceCount (placeholderFor f).toList := by
  obtain ⟨r, hr⟩ := placeholderFor_head f
  rw [hr]
  simp [braceCount, List.countP_cons]

/-- Replacing an occurrence by a brace-free replacement strictly lowers
the brace count when the pattern holds a brace. -/
theorem braceCount_replaceFirstL_lt (raw ph rep : List Char)
    (hne : ph ≠ []) (hhead : 1 ≤ braceCount ph) (hrep : braceCount rep = 0)
    (h : hasSub raw ph = true) :
    braceCount (replaceFirstL raw ph rep) < braceCount raw := by
  obtain ⟨a, b, he, hr, -⟩ := replaceFirstL_spec raw ph rep hne h
  rw [hr, he, braceCount_append, braceCount_append, braceCount_append,
    braceCount_append, hrep]
  omega

/-- Replacement by a brace-free replacement never raises the brace
count. -/
theorem braceCount_replaceFirstL_le (l ph rep : List Char)
    (hrep : braceCount rep = 0) :
    braceCount (replaceFirstL l ph rep) ≤ braceCount l := by
  cases hsub : hasSub l ph with
  | false => rw [replaceFirstL_no_match _ _ _ hsub]
  | true =>
    by_cases hne : ph = []
    · subst hne
      cases l with
      | nil => simp [replaceFirstL, startsWith, braceCount_append, hrep]
      | cons a t =>
        have hsw : startsWith (a :: t) [] = true := rfl
        simp [replaceFirstL, hsw, braceCount_append, hrep]
    · obtain ⟨a, b, he, hr, -⟩ := replaceFirstL_spec l ph rep hne hsub
      rw [hr, he, braceCount_append, braceCount_append, braceCount_append,
        braceCount_append, hrep]
      omega

/-- Invariant of the substitution fold run in the two modes over
entry lists sharing the same filenames with brace-free image tags: either
both states still equal the original description, or both brace counts
have strictly dropped below the original one. -/
theorem substitutePlaceholders_changed_invariant :
    ∀ (mp md : List (String × String)),
    List.Forall₂ (fun p q : String × String => p.1 = q.1) mp md →
    ∀ (raw sp sd : String),
    (∀ p ∈ mp, braceCount (imageTagFor p.2).toList = 0) →
    (∀ q ∈ md, braceCount (imageTagFor q.2).toList = 0) →
    ((sp = raw ∧ sd = raw)
      ∨ (braceCount sp.toList < braceCount raw.toList
          ∧ braceCount sd.toList < braceCount raw.toList)) →
    ((substitutePlaceholders sp mp = raw ∧ substitutePlaceholders sd md = raw)
      ∨ (braceCount (substitutePlaceholders sp mp).toList < braceCount raw.toList
          ∧ braceCount (substitutePlaceholders sd md).toList < braceCount raw.toList)) := by
  intro mp md hrel
  induction hrel with
  | nil =>
    intro raw sp sd _ _ hinv
    exact hinv
  | @cons p q mp' md' hfst hrel ih =>
    intro raw sp sd hp hq hinv
    have hstep : substitutePlaceholders sp (p :: mp')
        = substitutePlaceholders (jsReplace sp (placeholderFor p.1) (imageTagFor p.2)) mp' := rfl
    have hstep' : substitutePlaceholders sd (q :: md')
        = substitutePlaceholders (jsReplace sd (placeholderFor q.1) (imageTagFor q.2)) md' := rfl
    rw [hstep, hstep']
    have hp' : ∀ r ∈ mp', braceCount (imageTagFor r.2).toList = 0 :=
      fun r hr => hp r (by simp [hr])
    have hq' : ∀ r ∈ md', braceCount (imageTagFor r.2).toList = 0 :=
      fun r hr => hq r (by simp [hr])
    refine ih raw _ _ hp' hq' ?_
    have htagp : braceCount (imageTagFor p.2).toList = 0 := hp p (by simp)
    have htagq : braceCount (imageTagFor q.2).toList = 0 := hq q (by simp)
    rcases hinv with ⟨h₁, h₂⟩ | ⟨h₁, h₂⟩
    · rw [h₁, h₂]
      cases hsub : jsIncludes raw (placeholderFor p.1) with
      | false =>
        left
        have hsub' : jsIncludes raw (placeholderFor q.1) = false := by
          rw [← hfst]
          exact hsub
        exact ⟨by rw [jsReplace_no_match _ _ _ hsub],
               by rw [jsReplace_no_match _ _ _ hsub']⟩
      | true =>
        right
        have hsub' : jsIncludes raw (placeholderFor q.1) = true := by
          rw [← hfst]
          exact hsub
        constructor
        · exact braceCount_replaceFirstL_lt _ _ _ (placeholderFor_ne_nil p.1)
            (placeholderFor_braceCount_pos p.1) htagp hsub
        · exact braceCount_replaceFirstL_lt _ _ _ (placeholderFor_ne_nil q.1)
            (placeholderFor_braceCount_pos q.1) htagq hsub'
    · right
      constructor
      · exact lt_of_le_of_lt (braceCount_replaceFirstL_le _ _ _ htagp) h₁
      · exact lt_of_le_of_lt (braceCount_replaceFirstL_le _ _ _ htagq) h₂

/-- The two modes agree on whether substitution changed the description
at all, whenever their entry lists share the same filenames and the image
tags are brace-free. -/
theorem substitutePlaceholders_changed_agree (mp md : List (String × String))
    (raw : String)
    (hrel : List.Forall₂ (fun p q : String × String => p.1 = q.1) mp md)
    (hp : ∀ p ∈ mp, braceCount (imageTagFor p.2).toList = 0)
    (hq : ∀ q ∈ md, braceCount (imageTagFor q.2).toList = 0) :
    (substitutePlaceholders raw mp = raw) ↔ (substitutePlaceholders raw md = raw) := by
  rcases substitutePlaceholders_changed_invariant mp md hrel raw raw raw hp hq
      (Or.inl ⟨rfl, rfl⟩) with ⟨h₁, h₂⟩ | ⟨h₁, h₂⟩
  · simp [h₁, h₂]
  · constructor
    · intro hx
      rw [hx] at h₁
      exact absurd h₁ (lt_irrefl _)
    · intro hx
      rw [hx] at h₂
      exact absurd h₂ (lt_irrefl _)

/-! ## Pairwise mode comparison of the pipeline steps -/

/-- Map.set applied to two maps sharing their key structure, with the
same key, keeps the key structures identical. -/
theorem mapSet_forall₂_fst {α β : Type} :
    ∀ {m : List (String × α)} {m' : List (String × β)},
    List.Forall₂ (fun p q => p.1 = q.1) m m' →
    ∀ (k : String) (v : α) (v' : β),
    List.Forall₂ (fun p q => p.1 = q.1) (mapSet m k v) (mapSet m' k v') := by
  intro m m' h
  induction h with
  | nil => intro k v v'; exact .cons rfl .nil
  | @cons p q t t' hfst ht ih =>
    intro k v v'
    obtain ⟨k₁, v₁⟩ := p
    obtain ⟨k₂, v₂⟩ := q
    have hk12 : k₁ = k₂ := hfst
    subst hk12
    by_cases hk : (k₁ == k) = true
    · have hx : List.Forall₂ (fun (p : String × α) (q : String × β) => p.1 = q.1)
          ((k, v) :: t) ((k, v') :: t') := .cons rfl ht
      simpa [mapSet, hk] using hx
    · have hx : List.Forall₂ (fun (p : String × α) (q : String × β) => p.1 = q.1)
          ((k₁, v₁) :: mapSet t k v) ((k₁, v₂) :: mapSet t' k v') :=
        .cons rfl (ih k v v')
      simpa [mapSet, hk] using hx

/-- The attachment upload loop in the two modes, over the same attachment
list with no pre-existing attachments: the attempted uploads have the
same shapes and the produced maps share their filename structure. -/
theorem attachments_fold_pair (u : Option String) (wp wd : WpId)
    (fp fd : String → AttId) :
    ∀ (atts : List Attachment) (ep ed : List Mutation)
      (mp md : List (String × AttId)),
    ep.map mutationKind = ed.map mutationKind →
    List.Forall₂ (fun p q : String × AttId => p.1 = q.1) mp md →
    ((atts.foldl (fun acc att =>
          (acc.1 ++ [.uploadAtt wp att.filename u],
           mapSet acc.2 att.filename (fp att.filename))) (ep, mp)).1.map mutationKind
        = (atts.foldl (fun acc att =>
          (acc.1 ++ [.uploadAtt wd att.filename u],
           mapSet acc.2 att.filename (fd att.filename))) (ed, md)).1.map mutationKind)
    ∧ List.Forall₂ (fun p q : String × AttId => p.1 = q.1)
        ((atts.foldl (fun acc att =>
          (acc.1 ++ [.uploadAtt wp att.filename u],
           mapSet acc.2 att.filename (fp att.filename))) (ep, mp)).2)
        ((atts.foldl (fun acc att =>
          (acc.1 ++ [.uploadAtt wd att.filename u],
           mapSet acc.2 att.filename (fd att.filename))) (ed, md)).2)
  | [], _, _, _, _, h, hrel => ⟨h, hrel⟩
  | att :: atts, ep, ed, mp, md, h, hrel => by
    refine attachments_fold_pair u wp wd fp fd atts _ _ _ _ ?_ ?_
    · simp [h, mutationKind]
    · exact mapSet_forall₂_fst hrel att.filename _ _

/-- Attachment step compared across modes, with read responses reporting
no pre-existing attachments. -/
theorem processAttachments_pair (env : IssueEnv) (issue : Issue) (wp wd : WpId)
    (hatt : env.existingAttachments = []) :
    ((processAttachments true env issue wp).1.map mutationKind
        = (processAttachments false env issue wd).1.map mutationKind)
    ∧ List.Forall₂ (fun p q : String × AttId => p.1 = q.1)
        (processAttachments true env issue wp).2
        (processAttachments false env issue wd).2 := by
  unfold processAttachments
  cases hia : issue.attachment with
  | none => exact ⟨rfl, .nil⟩
  | some atts =>
    dsimp only
    by_cases he : atts.isEmpty = true
    · rw [if_pos he, if_pos he]
      exact ⟨rfl, .nil⟩
    · rw [if_neg he, if_neg he, hatt]
      exact attachments_fold_pair (impersonationFor env issue.creator) wp wd
        (fun s => .real (env.uploadedId s)) (fun _ => .dryRunAttachmentId)
        atts [] [] [] [] rfl .nil

/-- Comment loop compared across modes: the same skip decisions, the same
crash flag, and postComment attempts of the same shapes; the substitution
maps may differ in the identifiers they splice into the html payload. -/
theorem processCommentList_pair (env : IssueEnv) (wp wd : WpId)
    (mrp mrd : List (String × String)) (markers : List String) :
    ∀ cs : List JiraComment,
    ((processCommentList true env wp mrp markers cs).1.map mutationKind
        = (processCommentList false env wd mrd markers cs).1.map mutationKind)
    ∧ (processCommentList true env wp mrp markers cs).2
        = (processCommentList false env wd mrd markers cs).2
  | [] => ⟨rfl, rfl⟩
  | c :: rest => by
    have ih := processCommentList_pair env wp wd mrp mrd markers rest
    unfold processCommentList
    by_cases hm : markers.contains c.id = true
    · rw [if_pos hm, if_pos hm]
      exact ih
    · rw [if_neg hm, if_neg hm]
      cases hcv : convertAtlassianDocumentToHtml c.body with
      | none => exact ⟨rfl, rfl⟩
      | some html =>
        dsimp only
        by_cases hh : (html == "") = true
        · rw [if_pos hh, if_pos hh]
          exact ih
        · rw [if_neg hh, if_neg hh]
          dsimp only
          refine ⟨?_, ih.2⟩
          rw [List.map_cons, List.map_cons, ih.1]
          rfl

/-- Comment step compared across modes, with read responses reporting no
pre-existing comments. -/
theorem processComments_pair (env : IssueEnv) (wp wd : WpId)
    (mrp mrd : List (String × String)) (comments : Option (List JiraComment))
    (hcom : env.existingComments = []) :
    ((processComments true env wp mrp comments).1.map mutationKind
        = (processComments false env wd mrd comments).1.map mutationKind)
    ∧ (processComments true env wp mrp comments).2
        = (processComments false env wd mrd comments).2 := by
  unfold processComments
  cases comments with
  | none => exact ⟨rfl, rfl⟩
  | some cs =>
    dsimp only
    by_cases he : cs.isEmpty = true
    · rw [if_pos he, if_pos he]
      exact ⟨rfl, rfl⟩
    · rw [if_neg he, if_neg he, hcom]
      exact processCommentList_pair env wp wd mrp mrd _ cs

/-- The watcher loop attempts the same additions in both modes. -/
theorem watchers_filterMap_pair (env : IssueEnv) (wp wd : WpId) :
    ∀ ws : List String,
    ((ws.filterMap (fun w =>
        match env.userMapping w with
        | some uid => some (Mutation.watcherAdd wp uid)
        | none => none)).map mutationKind)
      = ((ws.filterMap (fun w =>
        match env.userMapping w with
        | some uid => some (Mutation.watcherAdd wd uid)
        | none => none)).map mutationKind)
  | [] => rfl
  | w :: ws => by
    cases hm : env.userMapping w <;>
      simp [List.filterMap_cons, hm, mutationKind,
        watchers_filterMap_pair env wp wd ws]

/-- Watcher step compared across modes. -/
theorem processWatchers_pair (env : IssueEnv) (issue : Issue) (wp wd : WpId) :
    (processWatchers env issue wp).map mutationKind
      = (processWatchers env issue wd).map mutationKind := by
  unfold processWatchers
  by_cases h : issue.watchCount > 0
  · rw [if_pos h, if_pos h]
    exact watchers_filterMap_pair env wp wd env.watchers
  · rw [if_neg h, if_neg h]

/-- Rendering the attachment ids keeps the filename structure. -/
theorem forall₂_fst_map_renderAttId {mp md : List (String × AttId)}
    (h : List.Forall₂ (fun p q : String × AttId => p.1 = q.1) mp md) :
    List.Forall₂ (fun p q : String × String => p.1 = q.1)
      (mp.map (fun p => (p.1, renderAttId p.2)))
      (md.map (fun p => (p.1, renderAttId p.2))) := by
  induction h with
  | nil => exact .nil
  | @cons p q t t' hfst ht ih => exact .cons hfst ih

/-- Every image tag built from a rendered attachment id is brace-free. -/
theorem attMapR_tags_no_brace (m : List (String × AttId)) :
    ∀ p ∈ m.map (fun p => (p.1, renderAttId p.2)),
      braceCount (imageTagFor p.2).toList = 0 := by
  intro p hp
  obtain ⟨q, -, rfl⟩ := List.mem_map.mp hp
  exact imageTagFor_no_brace _ (renderAttId_no_brace q.2)

/-- Lists related by Forall₂ agree on emptiness. -/
theorem isEmpty_eq_of_forall₂ {α β : Type} {R : α → β → Prop}
    {mp : List α} {md : List β} (h : List.Forall₂ R mp md) :
    mp.isEmpty = md.isEmpty := by
  cases h <;> rfl

/-- Description finalisation compared across modes: when the two
attachment maps share their filename structure, the decision to issue the
second description-only update is the same, and the update attempts have
the same shape. -/
theorem descMutsFor_pair (raw : String) (wp wd : WpId) (u : Option String)
    (mp md : List (String × AttId))
    (hrel : List.Forall₂ (fun p q : String × AttId => p.1 = q.1) mp md) :
    (descMutsFor raw wp u mp).map mutationKind
      = (descMutsFor raw wd u md).map mutationKind := by
  unfold descMutsFor
  have hie : mp.isEmpty = md.isEmpty := isEmpty_eq_of_forall₂ hrel
  by_cases he : mp.isEmpty = true
  · have he2 : md.isEmpty = true := hie ▸ he
    rw [if_pos he, if_pos he2]
  · have he2 : ¬md.isEmpty = true := by rw [← hie]; exact he
    rw [if_neg he, if_neg he2]
    dsimp only
    have hch := substitutePlaceholders_changed_agree
      (mp.map (fun p => (p.1, renderAttId p.2)))
      (md.map (fun p => (p.1, renderAttId p.2))) raw
      (forall₂_fst_map_renderAttId hrel)
      (attMapR_tags_no_brace mp) (attMapR_tags_no_brace md)
    by_cases hc : substitutePlaceholders raw (mp.map (fun p => (p.1, renderAttId p.2))) = raw
    · have hc1 : (substitutePlaceholders raw
          (mp.map (fun p => (p.1, renderAttId p.2))) == raw) = true := by simpa using hc
      have hc2 : (substitutePlaceholders raw
          (md.map (fun p => (p.1, renderAttId p.2))) == raw) = true := by
        simpa using hch.mp hc
      rw [if_pos hc1, if_pos hc2]
    · have hc1 : ¬(substitutePlaceholders raw
          (mp.map (fun p => (p.1, renderAttId p.2))) == raw) = true := by simpa using hc
      have hc2 : ¬(substitutePlaceholders raw
          (md.map (fun p => (p.1, renderAttId p.2))) == raw) = true := by
        simpa using fun hx => hc (hch.mpr hx)
      rw [if_neg hc1, if_neg hc2]
      rfl

/-- The normal path of the loop body compared across modes, given read
responses reporting no pre-existing attachments and no pre-existing
comments: the same shapes of attempted mutations, the same skip state and
the same error state. -/
theorem processIssueBody_pair (env : IssueEnv) (issue : Issue) (raw : String)
    (hatt : env.existingAttachments = []) (hcom : env.existingComments = []) :
    ((processIssueBody true env issue raw).mutations.map mutationKind
        = (processIssueBody false env issue raw).mutations.map mutationKind)
    ∧ (processIssueBody true env issue raw).skipped
        = (processIssueBody false env issue raw).skipped
    ∧ (processIssueBody true env issue raw).errored
        = (processIssueBody false env issue raw).errored := by
  unfold processIssueBody
  dsimp only
  obtain ⟨hA1, hA2⟩ :=
    processAttachments_pair env issue (wpIdFor true env) (wpIdFor false env) hatt
  have hD := descMutsFor_pair raw (wpIdFor true env) (wpIdFor false env)
    (impersonationFor env issue.creator) _ _ hA2
  obtain ⟨hC1, hC2⟩ := processComments_pair env (wpIdFor true env) (wpIdFor false env)
    ((processAttachments true env issue (wpIdFor true env)).2.map
      (fun p => (p.1, renderAttId p.2)))
    ((processAttachments false env issue (wpIdFor false env)).2.map
      (fun p => (p.1, renderAttId p.2)))
    issue.comments hcom
  have hW := processWatchers_pair env issue (wpIdFor true env) (wpIdFor false env)
  rw [hC2]
  by_cases hcr : (processComments false env (wpIdFor false env)
      ((processAttachments false env issue (wpIdFor false env)).2.map
        (fun p => (p.1, renderAttId p.2))) issue.comments).2 = true
  · rw [if_pos hcr, if_pos hcr]
    refine ⟨?_, rfl, rfl⟩
    dsimp only
    rw [List.map_append, List.map_append, List.map_append, List.map_append,
      List.map_append, List.map_append, hA1, hD, hC1]
  · rw [if_neg hcr, if_neg hcr]
    refine ⟨?_, rfl, rfl⟩
    dsimp only
    rw [List.map_append, List.map_append, List.map_append, List.map_append,
      List.map_append, List.map_append, List.map_append, List.map_append,
      hA1, hD, hC1, hW]

/-- C8 counterexample: the claim states that dry-run performs all
read/lookup operations and that, given identical read responses, the two
modes attempt identical mutation sequences.  The code instead replaces
the attachment-existence and comment-existence reads with empty results
in dry-run (existingAttachments and existingComments are taken from the
response only when isProd).  With read responses reporting that a.png is
already attached, production mode skips the upload while dry-run attempts
it: the two attempted-mutation sequences differ even up to identifier
renaming. -/
theorem c8_counterexample_dry_run_diverges :
    (processIssue true false c8Env c8Issue).mutations.map mutationKind
        = [.createWP "K" none]
    ∧ (processIssue false false c8Env c8Issue).mutations.map mutationKind
        = [.createWP "K" none, .uploadAtt "a.png" none]
    ∧ (processIssue true false c8Env c8Issue).mutations.map mutationKind
        ≠ (processIssue false false c8Env c8Issue).mutations.map mutationKind := by
  refine ⟨rfl, rfl, ?_⟩
  decide

/-- C8 amended: dry-run executes the same pipeline as production mode but
additionally replaces the attachment-existence and comment-existence
reads with empty results.  Consequently, whenever the read responses
report no pre-existing attachments and no pre-existing comments (for
example a first migration into an empty project), the two modes attempt
mutations of identical shapes in identical order — work-package
create/update, attachment uploads, the description finalisation decision,
comment posts and watcher additions, with the same keys, filenames,
comment ids, user ids and impersonation actors — and finish in the same
skip and error states, differing only in the synthetic placeholder
identifiers the dry-run no-ops return. -/
theorem c8_amended_dry_run_equivalence :
    ∀ (skipUpdates : Bool) (env : IssueEnv) (issue : Issue),
      env.existingAttachments = [] → env.existingComments = [] →
      ((processIssue true skipUpdates env issue).mutations.map mutationKind
          = (processIssue false skipUpdates env issue).mutations.map mutationKind)
      ∧ (processIssue true skipUpdates env issue).skipped
          = (processIssue false skipUpdates env issue).skipped
      ∧ (processIssue true skipUpdates env issue).errored
          = (processIssue false skipUpdates env issue).errored := by
  intro sk env issue hatt hcom
  unfold processIssue
  cases hw : env.existingWorkPackage with
  | some ex =>
    cases sk with
    | true => exact ⟨rfl, rfl, rfl⟩
    | false =>
      dsimp only
      cases hcv : convertAtlassianDocumentToHtml issue.description with
      | none => exact ⟨rfl, rfl, rfl⟩
      | some raw => exact processIssueBody_pair env issue raw hatt hcom
  | none =>
    cases sk with
    | true =>
      dsimp only
      cases hcv : convertAtlassianDocumentToHtml issue.description with
      | none => exact ⟨rfl, rfl, rfl⟩
      | some raw => exact processIssueBody_pair env issue raw hatt hcom
    | false =>
      dsimp only
      cases hcv : convertAtlassianDocumentToHtml issue.description with
      | none => exact ⟨rfl, rfl, rfl⟩
      | some raw => exact processIssueBody_pair env issue raw hatt hcom

/-- Witness for C8 amended at a concrete input: with empty attachment and
comment listings, the two modes produce the same attempted-mutation
shapes for the one-attachment issue. -/
theorem c8_amended_dry_run_equivalence_witness :
    ((processIssue true false c8EnvEmpty c8Issue).mutations.map mutationKind
        = (processIssue false false c8EnvEmpty c8Issue).mutations.map mutationKind)
    ∧ (processIssue true false c8EnvEmpty c8Issue).skipped
        = (processIssue false false c8EnvEmpty c8Issue).skipped
    ∧ (processIssue true false c8EnvEmpty c8Issue).errored
        = (processIssue false false c8EnvEmpty c8Issue).errored :=
  c8_amended_dry_run_equivalence false c8EnvEmpty c8Issue rfl rfl

end Migration
